import Mathlib

/-!
Verification development for the WordPress-to-Directus migration script
(`migration_gui/migration_script.js`).  The JavaScript source is shallowly
embedded: pure functions become Lean functions over `String`/`List Char`,
the two PostgreSQL databases and the in-memory caches become an explicit
`World` record threaded through the entity migrators, and the remote
Directus file-import endpoint becomes an oracle parameter
`String → Except String String`.  Regex scans are embedded as explicit
character scanners that mimic the semantics of the concrete regular
expressions appearing in the source (leftmost match, alternation order,
greedy/lazy quantifiers, case-insensitivity flags), and generators /
recursive descents carry an explicit fuel argument that over-approximates
the recursion depth of the original code.
-/

set_option maxRecDepth 8000

namespace Migration

/-! ### Basic character and string helpers -/

/-- ASCII lower-casing used to model the `i` flag of the JavaScript regexes. -/
def lowChar (c : Char) : Char :=
  if 'A' ≤ c ∧ c ≤ 'Z' then Char.ofNat (c.toNat + 32) else c

/-- Case-insensitive literal matcher: on success returns the consumed input
characters (original case preserved, as a JS capture group would) and the
remaining input. -/
def matchLitCI : List Char → List Char → Option (List Char × List Char)
  | [], s => some ([], s)
  | _ :: _, [] => none
  | p :: ps, c :: cs =>
    if lowChar c = lowChar p then
      (matchLitCI ps cs).map (fun pr => (c :: pr.1, pr.2))
    else none

/-- Case-sensitive literal matcher returning the rest of the input. -/
def matchLit : List Char → List Char → Option (List Char)
  | [], s => some s
  | _ :: _, [] => none
  | p :: ps, c :: cs => if c = p then matchLit ps cs else none

/-- Search for the first occurrence (case-insensitive) of `needle`, returning
the text before it and the text after it, mimicking a lazy `[\s\S]*?` capture
followed by the needle. -/
def searchCI (needle : List Char) : List Char → Option (List Char × List Char)
  | [] => if needle.isEmpty then some ([], []) else none
  | c :: cs =>
    match matchLitCI needle (c :: cs) with
    | some (_, rest) => some ([], rest)
    | none => (searchCI needle cs).map (fun pr => (c :: pr.1, pr.2))

/-- Quote characters recognised by the `["']` character classes. -/
def isQuote (c : Char) : Bool := c = '"' ∨ c = '\''

/-- Digit test for the `\d` class. -/
def isDigitCh (c : Char) : Bool := '0' ≤ c ∧ c ≤ '9'

/-- Word characters of the JavaScript `\w` class (no `u` flag). -/
def isWordCh (c : Char) : Bool :=
  ('a' ≤ c ∧ c ≤ 'z') ∨ ('A' ≤ c ∧ c ≤ 'Z') ∨ ('0' ≤ c ∧ c ≤ '9') ∨ c = '_'

/-- Membership of a substring, used to model `String.prototype.includes`. -/
def containsSub (pat : List Char) : List Char → Bool
  | [] => pat.isEmpty
  | c :: cs => (matchLit pat (c :: cs)).isSome || containsSub pat cs

/-- The `s.includes(pat)` test on `String`. -/
def strIncludes (s pat : String) : Bool := containsSub pat.data s.data

/-- The `s.startsWith(pat)` test on `String` (list-based, so that concrete
instances reduce definitionally). -/
def strStartsWith (s pat : String) : Bool := (matchLit pat.data s.data).isSome

/-! ### CSV line parser (`parseCSVLine`)

Direct transcription of the character loop of `parseCSVLine`: a single-line
CSV split honouring quoted fields, with `""` inside a quoted field producing
a literal `"`. -/

def parseCSVLineAux : List Char → Bool → String → List String → List String
  | [], _, current, acc => acc ++ [current]
  | '"' :: '"' :: rest, true, current, acc =>
      parseCSVLineAux rest true (current.push '"') acc
  | '"' :: rest, true, current, acc => parseCSVLineAux rest false current acc
  | c :: rest, true, current, acc => parseCSVLineAux rest true (current.push c) acc
  | '"' :: rest, false, current, acc => parseCSVLineAux rest true current acc
  | ',' :: rest, false, current, acc => parseCSVLineAux rest false "" (acc ++ [current])
  | c :: rest, false, current, acc => parseCSVLineAux rest false (current.push c) acc

/-- The `parseCSVLine` function of the source. -/
def parseCSVLine (line : String) : List String :=
  parseCSVLineAux line.data false "" []

/-- Number of `"` characters in a string: `(s.match(/"/g) || []).length`. -/
def countQuotes (s : String) : Nat := s.data.countP (fun c => c = '"')

/-! ### Streaming CSV reader (`readWpPostsCSV`)

The async generator is embedded as a state machine folded over the list of
physical lines.  `Record` models the header-keyed JavaScript object built by
`headers.forEach((h, i) => record[h] = values[i])`: assignments are applied
in order and a later assignment to the same key overwrites the earlier one,
JavaScript-object style. -/

abbrev Record := List (String × String)

/-- Property assignment on a JavaScript-object-like association list: an
existing key is updated in place, a new key is appended. -/
def objSet (r : Record) (k v : String) : Record :=
  if r.any (fun p => p.1 = k) then
    r.map (fun p => if p.1 = k then (k, v) else p)
  else r ++ [(k, v)]

/-- Property lookup on the object model. -/
def getField (r : Record) (k : String) : Option String :=
  (r.find? (fun p => p.1 = k)).map (fun p => p.2)

/-- Build the yielded record from the header row and the parsed values. -/
def mkRecord (headers values : List String) : Record :=
  (headers.zip values).foldl (fun r hv => objSet r hv.1 hv.2) []

/-- Options of `readWpPostsCSV`: `postType`, `postStatus` and `limit`
(`limit = 0` means unlimited). -/
structure CSVOptions where
  postType : String
  postStatus : Option String
  limit : Nat
deriving Repr, DecidableEq

/-- Generator state: headers once read, the multi-line field accumulator
(`currentRecord`/`currentField` of the source; `none` when no continuation is
active), the count of matching records, and whether `rl.close()`/`return`
has ended the stream. -/
structure ReaderState where
  headers : Option (List String)
  currentField : Option String
  count : Nat
  closed : Bool
deriving Repr, DecidableEq

/-- The filter applied before yielding: `record.post_type === postType` and
`(!postStatus || record.post_status === postStatus)`. -/
def csvFilterPass (opts : CSVOptions) (rec : Record) : Bool :=
  (getField rec "post_type" == some opts.postType) &&
    (match opts.postStatus with
     | none => true
     | some st => getField rec "post_status" == some st)

/-- Count/limit bookkeeping around a record that passed the filter: the
record is yielded while `limit === 0 || count <= limit`, and the generator
returns (closing the read) once `limit > 0 && count >= limit`. -/
def csvTryYield (opts : CSVOptions) (st : ReaderState) (rec : Record) :
    ReaderState × List Record :=
  if csvFilterPass opts rec then
    let c := st.count + 1
    let yielded := if opts.limit = 0 ∨ c ≤ opts.limit then [rec] else []
    let cl := decide (0 < opts.limit ∧ opts.limit ≤ c)
    ({ st with count := c, closed := st.closed || cl }, yielded)
  else (st, [])

/-- One iteration of the `for await (const line of rl)` body. -/
def csvProcessLine (opts : CSVOptions) (st : ReaderState) (line : String) :
    ReaderState × List Record :=
  if st.closed then (st, [])
  else
    match st.headers with
    | none => ({ st with headers := some (parseCSVLine line) }, [])
    | some hdrs =>
      match st.currentField with
      | some f =>
        let f2 := f ++ "\n" ++ line
        if countQuotes f2 % 2 = 0 then
          let values := parseCSVLine f2
          let st2 := { st with currentField := none }
          if values.length = hdrs.length then
            csvTryYield opts st2 (mkRecord hdrs values)
          else (st2, [])
        else ({ st with currentField := some f2 }, [])
      | none =>
        let values := parseCSVLine line
        if values.length = hdrs.length then
          csvTryYield opts st (mkRecord hdrs values)
        else if values.length < hdrs.length then
          ({ st with currentField := some line }, [])
        else (st, [])

/-- Initial generator state. -/
def csvInit : ReaderState :=
  { headers := none, currentField := none, count := 0, closed := false }

/-- The whole generator run: fold the per-line step over the physical lines
of the file, collecting the yielded records in order. -/
def readWpPostsCSV (opts : CSVOptions) (lines : List String) : List Record :=
  (lines.foldl
    (fun acc line =>
      let st := acc.1
      let step := csvProcessLine opts st line
      (step.1, acc.2 ++ step.2))
    (csvInit, [])).2

/-! ### Media URL extraction (`extractMediaUrls`)

Each regular expression of the source is embedded as an anchored matcher
over `List Char`; a generic scanner applies it with the JavaScript
global-flag semantics (leftmost match, resume after the matched text,
advance one character on failure).  Captures preserve the original case
while matching is case-insensitive, as under the `i` flag. -/

/-- Un-doubling of CSV-export quote escaping: `s.replace(/""/g, '"')`. -/
def unescPairs : List Char → List Char
  | '"' :: '"' :: rest => '"' :: unescPairs rest
  | c :: rest => c :: unescPairs rest
  | [] => []

/-- String-level wrapper of `unescPairs`. -/
def unescapeDoubledQuotes (s : String) : String := String.mk (unescPairs s.data)

/-- Generic global scan: at every position try the anchored matcher; on a
match emit the capture and resume after the matched text, otherwise advance
one character.  The fuel (always instantiated with the input length plus
one) bounds the number of steps; every matcher consumes at least one
character, so the bound is never hit. -/
def scanG {α : Type} (try1 : List Char → Option (α × List Char)) :
    Nat → List Char → List α
  | 0, _ => []
  | _ + 1, [] => []
  | n + 1, c :: rest =>
    match try1 (c :: rest) with
    | some (cap, rest2) => cap :: scanG try1 n rest2
    | none => scanG try1 n rest

/-- Scan a character list and render captures as strings. -/
def runScan (try1 : List Char → Option (List Char × List Char))
    (s : List Char) : List String :=
  (scanG try1 (s.length + 1) s).map String.mk

/-- Anchored matcher for
`attr=["'](https?://(?:www.)?btaskee.com/wp-content/uploads/[^"']+)["']`
(patterns 1 and 4 of `extractMediaUrls`, and the full-URL caption
sub-pattern). -/
def tryAbsUrl (attr : List Char) (s : List Char) : Option (List Char × List Char) :=
  match matchLitCI (attr ++ ['=']) s with
  | none => none
  | some (_, r1) =>
    match r1 with
    | [] => none
    | q :: r2 =>
      if isQuote q then
        match matchLitCI "http".data r2 with
        | none => none
        | some (c1, r3) =>
          let sPart : List Char × List Char :=
            match r3 with
            | c :: r4 => if lowChar c = 's' then ([c], r4) else ([], r3)
            | [] => ([], r3)
          match matchLitCI "://".data sPart.2 with
          | none => none
          | some (c2, r5) =>
            let wPart : List Char × List Char :=
              match matchLitCI "www.".data r5 with
              | some pr => (pr.1, pr.2)
              | none => ([], r5)
            match matchLitCI "btaskee.com/wp-content/uploads/".data wPart.2 with
            | none => none
            | some (c3, r7) =>
              let run := r7.takeWhile (fun c => !(isQuote c))
              let r8 := r7.dropWhile (fun c => !(isQuote c))
              if run.isEmpty then none
              else
                match r8 with
                | _ :: r9 => some (c1 ++ sPart.1 ++ c2 ++ wPart.1 ++ c3 ++ run, r9)
                | [] => none
      else none

/-- Anchored matcher for `src=["'](/wp-content/uploads/[^"']+)["']`
(pattern 2 and the relative caption sub-pattern). -/
def tryRelSrc (s : List Char) : Option (List Char × List Char) :=
  match matchLitCI "src=".data s with
  | none => none
  | some (_, r1) =>
    match r1 with
    | [] => none
    | q :: r2 =>
      if isQuote q then
        match matchLitCI "/wp-content/uploads/".data r2 with
        | none => none
        | some (pfx, r3) =>
          let run := r3.takeWhile (fun c => !(isQuote c))
          let r4 := r3.dropWhile (fun c => !(isQuote c))
          if run.isEmpty then none
          else
            match r4 with
            | _ :: r5 => some (pfx ++ run, r5)
            | [] => none
      else none

/-- Anchored matcher for
`src=["']http://localhost:\d+/wp-content/uploads/([^"']+)["']` (pattern 3);
the capture is only the path after the uploads prefix. -/
def tryLocalhostSrc (s : List Char) : Option (List Char × List Char) :=
  match matchLitCI "src=".data s with
  | none => none
  | some (_, r1) =>
    match r1 with
    | [] => none
    | q :: r2 =>
      if isQuote q then
        match matchLitCI "http://localhost:".data r2 with
        | none => none
        | some (_, r3) =>
          let digits := r3.takeWhile isDigitCh
          let r4 := r3.dropWhile isDigitCh
          if digits.isEmpty then none
          else
            match matchLitCI "/wp-content/uploads/".data r4 with
            | none => none
            | some (_, r5) =>
              let run := r5.takeWhile (fun c => !(isQuote c))
              let r6 := r5.dropWhile (fun c => !(isQuote c))
              if run.isEmpty then none
              else
                match r6 with
                | _ :: r7 => some (run, r7)
                | [] => none
      else none

/-- Anchored matcher for the caption shortcode
`\[caption[^\]]*\]([\s\S]*?)\[\/caption\]` (pattern 5); the capture is the
shortcode body. -/
def tryCaption (s : List Char) : Option (List Char × List Char) :=
  match matchLitCI "[caption".data s with
  | none => none
  | some (_, r1) =>
    let r2 := r1.dropWhile (fun c => c ≠ ']')
    match r2 with
    | ']' :: r3 =>
      match searchCI "[/caption]".data r3 with
      | some (inner, rest) => some (inner, rest)
      | none => none
    | _ => none

/-- File extensions of pattern 6. -/
def extList : List (List Char) :=
  ["jpg", "jpeg", "png", "gif", "webp", "svg", "pdf", "doc", "docx"].map String.data

/-- The `[^\s"'<>]` character class of pattern 6. -/
def isDirectClass (c : Char) : Bool :=
  !(c.isWhitespace) && !(isQuote c) && !(c = '<') && !(c = '>')

/-- Case-insensitive suffix test. -/
def endsWithCI (suf s : List Char) : Bool :=
  (matchLit (suf.reverse.map lowChar) (s.reverse.map lowChar)).isSome

/-- Anchored matcher for
`["'](/wp-content/uploads/[^\s"'<>]+\.(jpg|jpeg|png|gif|webp|svg|pdf|doc|docx))["']`
(pattern 6): the maximal class run after the uploads prefix must end in a
dot plus a known extension, with a non-empty stem, and be closed by a
quote. -/
def tryDirectPath (s : List Char) : Option (List Char × List Char) :=
  match s with
  | [] => none
  | q :: r1 =>
    if isQuote q then
      match matchLitCI "/wp-content/uploads/".data r1 with
      | none => none
      | some (pfx, r2) =>
        let run := r2.takeWhile isDirectClass
        let r3 := r2.dropWhile isDirectClass
        if run.isEmpty then none
        else if extList.any (fun e =>
            endsWithCI ('.' :: e) run && e.length + 2 ≤ run.length) then
          match r3 with
          | q2 :: r4 => if isQuote q2 then some (pfx ++ run, r4) else none
          | [] => none
        else none
    else none

/-- Insertion into the JavaScript `Set` model: keep first occurrence. -/
def setAdd (acc : List String) (u : String) : List String :=
  if u ∈ acc then acc else acc ++ [u]

/-- The raw stream of URLs produced by the six patterns of
`extractMediaUrls`, in emission order, before `Set` de-duplication. -/
def rawMediaUrls (baseUrl : String) (content : String) : List String :=
  let clean := unescapeDoubledQuotes content
  let cs := clean.data
  let m1 := runScan (tryAbsUrl "src".data) cs
  let m2 := (runScan tryRelSrc cs).map (fun u => baseUrl ++ u)
  let m3 := (runScan tryLocalhostSrc cs).map
    (fun u => baseUrl ++ "/wp-content/uploads/" ++ u)
  let m4 := runScan (tryAbsUrl "href".data) cs
  let m5 := (scanG tryCaption (cs.length + 1) cs).flatMap (fun inner =>
    (runScan tryRelSrc inner).map (fun u => baseUrl ++ u) ++
      runScan (tryAbsUrl "src".data) inner)
  let m6 := (runScan tryDirectPath cs).map (fun u => baseUrl ++ u)
  m1 ++ m2 ++ m3 ++ m4 ++ m5 ++ m6

/-- The `extractMediaUrls` function: empty (falsy) content yields no URLs,
otherwise the patterns feed a `Set` and `Array.from` returns insertion
order.  `baseUrl` is `CONFIG.WP_BASE_URL`. -/
def extractMediaUrls (baseUrl content : String) : List String :=
  if content = "" then [] else (rawMediaUrls baseUrl content).foldl setAdd []

/-- Specification-side first-occurrence de-duplication. -/
def firstDedup : List String → List String
  | [] => []
  | x :: xs => x :: firstDedup (xs.filter (fun y => y != x))
termination_by l => l.length
decreasing_by
  simp only [List.length_cons]
  exact Nat.lt_succ_of_le (List.length_filter_le _ xs)

/-! ### TipTap document model

`Mark` and `TNode` model the JSON node objects produced by the converter.
Constant attributes of the source (`fixed: false`,
`captionDisplayOption: 'inner'`, heading `textAlign:'left', id:null`,
`codeBlock.attrs.language: null`) and the derived `withCaption = !!caption`
are not stored, being functions of the remaining fields.  A paragraph
carries `textAlign = some "left"` when built by `createParagraphNode` /
`createHeadingNode` companions and `none` for the attr-less paragraphs of
table cells.  An empty `content` list models the `undefined` content the
source leaves off. -/

inductive Mark where
  | bold
  | italic
  | underline
  | strike
  | superscript
  | subscript
  | code
  | link (href target : String)
deriving DecidableEq, Repr

inductive TNode where
  | text (txt : String) (marks : List Mark)
  | image (src alt : String) (subCaption : Option String)
      (width height : Option Nat)
  | paragraph (textAlign : Option String) (content : List TNode)
  | heading (level : Nat) (content : List TNode)
  | bulletList (content : List TNode)
  | orderedList (content : List TNode)
  | listItem (content : List TNode)
  | blockquote (content : List TNode)
  | codeBlock (content : List TNode)
  | horizontalRule
  | table (content : List TNode)
  | tableRow (content : List TNode)
  | tableHeader (content : List TNode)
  | tableCell (content : List TNode)
  | doc (content : List TNode)
deriving Repr

/-! ### Generic scanning and replacement combinators -/

/-- Global replace: at every position try the anchored matcher, which
returns the replacement text and the input after the matched text. -/
def replaceScan (try1 : List Char → Option (List Char × List Char)) :
    Nat → List Char → List Char
  | 0, s => s
  | _ + 1, [] => []
  | n + 1, c :: rest =>
    match try1 (c :: rest) with
    | some (repl, rest2) => repl ++ replaceScan try1 n rest2
    | none => c :: replaceScan try1 n rest

/-- First match of an anchored matcher, scanning left to right: returns the
text before the match, the matcher payload, and the input after the match. -/
def findFirstScan {α : Type} (try1 : List Char → Option (α × List Char)) :
    List Char → Option (List Char × α × List Char)
  | [] => none
  | c :: rest =>
    match try1 (c :: rest) with
    | some (m, rest2) => some ([], m, rest2)
    | none => (findFirstScan try1 rest).map (fun t => (c :: t.1, t.2.1, t.2.2))

/-- Literal matcher emitting a fixed replacement, for
`String.prototype.replace` with a literal global pattern. -/
def tryLit (pat repl : List Char) (s : List Char) :
    Option (List Char × List Char) :=
  if pat.isEmpty then none
  else (matchLit pat s).map (fun rest => (repl, rest))

/-- Global literal replace on strings. -/
def strReplaceAll (s pat repl : String) : String :=
  String.mk (replaceScan (tryLit pat.data repl.data) (s.data.length + 1) s.data)

/-- JavaScript-style trim (both ends, whitespace). -/
def trimChars (s : List Char) : List Char :=
  ((s.dropWhile Char.isWhitespace).reverse.dropWhile Char.isWhitespace).reverse

/-- Case-sensitive suffix test. -/
def endsWithLit (suf s : List Char) : Bool :=
  (matchLit suf.reverse s.reverse).isSome

/-! ### WordPress pre-processing (`preprocessWordPressContent`) -/

/-- Anchored matcher for `<img[^>]+>` (case-insensitive), returning the
matched tag text. -/
def tryImgTag (s : List Char) : Option (List Char × List Char) :=
  match matchLitCI "<img".data s with
  | none => none
  | some (openc, r1) =>
    let run := r1.takeWhile (fun c => !(c = '>'))
    let r2 := r1.dropWhile (fun c => !(c = '>'))
    if run.isEmpty then none
    else
      match r2 with
      | '>' :: r3 => some (openc ++ run ++ ['>'], r3)
      | _ => none

/-- Remove every `<img[^>]+>` (the global replace of the paragraph-only-image
check). -/
def stripImgTags (s : List Char) : List Char :=
  replaceScan (fun t => (tryImgTag t).map (fun pr => ([], pr.2)))
    (s.length + 1) s

/-- Remove the first `<img[^>]+>` only (the non-global replace inside the
caption conversion). -/
def stripFirstImg (s : List Char) : List Char :=
  match findFirstScan tryImgTag s with
  | some (before, _, after) => before ++ after
  | none => s

/-- Anchored replacement step converting one `[caption]...[/caption]`
shortcode into `<figure>img<figcaption>text</figcaption></figure>`; a body
without an image tag is left as the original matched text. -/
def tryCaptionRepl (s : List Char) : Option (List Char × List Char) :=
  match tryCaption s with
  | none => none
  | some (inner, rest) =>
    let full := s.take (s.length - rest.length)
    match findFirstScan tryImgTag inner with
    | none => some (full, rest)
    | some (_, img, _) =>
      let captionText := trimChars (stripFirstImg inner)
      some ("<figure>".data ++ img ++ "<figcaption>".data ++ captionText ++
        "</figcaption></figure>".data, rest)

/-- Anchored matcher for the block-editor comments `<!--\s*wp:[^>]*-->` and
`<!--\s*/wp:[^>]*-->` (case-sensitive), replaced by nothing. -/
def tryWpComment (tagpfx : List Char) (s : List Char) :
    Option (List Char × List Char) :=
  match matchLit "<!--".data s with
  | none => none
  | some r1 =>
    let r2 := r1.dropWhile Char.isWhitespace
    match matchLit tagpfx r2 with
    | none => none
    | some r3 =>
      let run := r3.takeWhile (fun c => !(c = '>'))
      let r4 := r3.dropWhile (fun c => !(c = '>'))
      match r4 with
      | '>' :: r5 => if endsWithLit "--".data run then some ([], r5) else none
      | _ => none

/-- The `preprocessWordPressContent` function: caption shortcodes become
figures, block-editor comments are stripped, doubled quotes un-doubled, and
the result trimmed.  Falsy (empty) input is returned unchanged. -/
def preprocessWordPressContent (html : String) : String :=
  if html = "" then html
  else
    let p1 := replaceScan tryCaptionRepl (html.data.length + 1) html.data
    let p2 := replaceScan (tryWpComment "wp:".data) (p1.length + 1) p1
    let p3 := replaceScan (tryWpComment "/wp:".data) (p2.length + 1) p2
    String.mk (trimChars (unescPairs p3))

/-! ### Inline parsing (`parseInlineContent`) -/

/-- Anchored matcher for `<br\s*\/?>` (case-insensitive), replaced by a
newline. -/
def tryBrNl (s : List Char) : Option (List Char × List Char) :=
  match matchLitCI "<br".data s with
  | none => none
  | some (_, r1) =>
    let r2 := r1.dropWhile Char.isWhitespace
    let r3 := match r2 with
      | '/' :: r => r
      | r => r
    match r3 with
    | '>' :: r4 => some (['\n'], r4)
    | _ => none

/-- The source file of the repository stores the replacement literals for
`&#8211;` and `&#8230;` in a mojibake form; the embedded constants are the
exact character sequences present in the file. -/
def dashMoji : String := String.mk [Char.ofNat 0x201A, Char.ofNat 0xC4, Char.ofNat 0xEC]

/-- Mojibake replacement literal for `&#8230;` as present in the file. -/
def hellipMoji : String := String.mk [Char.ofNat 0x201A, Char.ofNat 0xC4, Char.ofNat 0xB6]

/-- The sequential entity-replacement chain opening `parseInlineContent`. -/
def entityDecode (s : String) : String :=
  let s1 := String.mk (replaceScan tryBrNl (s.data.length + 1) s.data)
  let s2 := strReplaceAll s1 "&nbsp;" " "
  let s3 := strReplaceAll s2 "&amp;" "&"
  let s4 := strReplaceAll s3 "&lt;" "<"
  let s5 := strReplaceAll s4 "&gt;" ">"
  let s6 := strReplaceAll s5 "&quot;" "\""
  let s7 := strReplaceAll s6 "&#8217;" "'"
  let s8 := strReplaceAll s7 "&#8220;" "\""
  let s9 := strReplaceAll s8 "&#8221;" "\""
  let s10 := strReplaceAll s9 "&#8211;" dashMoji
  strReplaceAll s10 "&#8230;" hellipMoji

/-- The inline tag vocabulary, in the alternation order of the regex
`(a|strong|b|em|i|span|sup|sub|cite|u|s|code)`. -/
def inlineTags : List (List Char) :=
  ["a", "strong", "b", "em", "i", "span", "sup", "sub", "cite", "u", "s", "code"].map
    String.data

/-- Try one inline tag alternative at the current position: `<tag[^>]*>`
followed by the lazily matched body up to the first `</tag>` (both
case-insensitive).  Returns the tag (lower case), the full matched text
(case preserved, as `match[0]`), the body and the rest. -/
def tryTagPair (t : List Char) (s : List Char) :
    Option ((String × List Char × List Char) × List Char) :=
  match matchLitCI ('<' :: t) s with
  | none => none
  | some (openc, r1) =>
    let attrs := r1.takeWhile (fun c => !(c = '>'))
    let r2 := r1.dropWhile (fun c => !(c = '>'))
    match r2 with
    | '>' :: r3 =>
      match searchCI ('<' :: '/' :: (t ++ ['>'])) r3 with
      | some (inner, rest) =>
        let fullLen := openc.length + attrs.length + 1 + inner.length + t.length + 3
        some ((String.mk t, s.take fullLen, inner), rest)
      | none => none
    | _ => none

/-- Branch 1 of the inline pattern: the tag alternatives in order. -/
def tryInlineTag (s : List Char) :
    Option ((String × List Char × List Char) × List Char) :=
  inlineTags.findSome? (fun t => tryTagPair t s)

/-- Branch 3 of the inline pattern, `<[^>]+>`: a generic tag, skipped. -/
def tryGenericTag (s : List Char) : Option (List Char) :=
  match s with
  | '<' :: r1 =>
    let run := r1.takeWhile (fun c => !(c = '>'))
    let r2 := r1.dropWhile (fun c => !(c = '>'))
    if run.isEmpty then none
    else
      match r2 with
      | '>' :: r3 => some r3
      | _ => none
  | _ => none

/-- Attribute matcher `href=["']([^"']+)["']` (case-insensitive). -/
def tryHrefAttr (s : List Char) : Option (List Char × List Char) :=
  match matchLitCI "href=".data s with
  | none => none
  | some (_, r1) =>
    match r1 with
    | q :: r2 =>
      if isQuote q then
        let run := r2.takeWhile (fun c => !(isQuote c))
        let r3 := r2.dropWhile (fun c => !(isQuote c))
        if run.isEmpty then none
        else
          match r3 with
          | _ :: r4 => some (run, r4)
          | [] => none
      else none
    | [] => none

/-- Attribute matcher `style=["']([^"']+)["']` (case-insensitive). -/
def tryStyleAttr (s : List Char) : Option (List Char × List Char) :=
  match matchLitCI "style=".data s with
  | none => none
  | some (_, r1) =>
    match r1 with
    | q :: r2 =>
      if isQuote q then
        let run := r2.takeWhile (fun c => !(isQuote c))
        let r3 := r2.dropWhile (fun c => !(isQuote c))
        if run.isEmpty then none
        else
          match r3 with
          | _ :: r4 => some (run, r4)
          | [] => none
      else none
    | [] => none

/-- Test for the style heuristics `prop:\s*word` (case-insensitive),
modelling `/font-weight:\s*bold/i.test(style)` and friends. -/
def hasStyleWord (prop word : String) (style : List Char) : Bool :=
  (findFirstScan (fun s =>
    match matchLitCI prop.data s with
    | none => none
    | some (_, r1) =>
      let r2 := r1.dropWhile Char.isWhitespace
      (matchLitCI word.data r2).map (fun pr => ((), pr.2))) style).isSome

/-- Mark accumulation for one inline tag, given the full matched text (the
attribute searches of the source run over `match[0]`, body included). -/
def marksFor (tag : String) (fullMatch : List Char) (inherited : List Mark) :
    List Mark :=
  match tag with
  | "a" =>
    match findFirstScan tryHrefAttr fullMatch with
    | some t => inherited ++ [Mark.link (String.mk t.2.1) "_blank"]
    | none => inherited
  | "strong" => inherited ++ [Mark.bold]
  | "b" => inherited ++ [Mark.bold]
  | "em" => inherited ++ [Mark.italic]
  | "i" => inherited ++ [Mark.italic]
  | "cite" => inherited ++ [Mark.italic]
  | "u" => inherited ++ [Mark.underline]
  | "s" => inherited ++ [Mark.strike]
  | "sup" => inherited ++ [Mark.superscript]
  | "sub" => inherited ++ [Mark.subscript]
  | "code" => inherited ++ [Mark.code]
  | "span" =>
    match findFirstScan tryStyleAttr fullMatch with
    | none => inherited
    | some t =>
      let style := t.2.1
      let m1 := if hasStyleWord "font-weight:" "bold" style then [Mark.bold] else []
      let m2 := if hasStyleWord "font-style:" "italic" style then [Mark.italic] else []
      let m3 := if hasStyleWord "text-decoration:" "underline" style then
        [Mark.underline] else []
      inherited ++ m1 ++ m2 ++ m3
  | _ => inherited

/-- The recursive `parseWithMarks` walk, emitting text runs tagged with the
active mark set.  Fuel strictly exceeds the input length at every call, so
the zero-fuel branch is never taken. -/
def parseWithMarks : Nat → List Char → List Mark → List TNode
  | 0, _, _ => []
  | _ + 1, [], _ => []
  | n + 1, c :: rest, marks =>
    match tryInlineTag (c :: rest) with
    | some ((tag, fullM, inner), rest2) =>
      parseWithMarks n inner (marksFor tag fullM marks) ++
        parseWithMarks n rest2 marks
    | none =>
      if c = '<' then
        match tryGenericTag (c :: rest) with
        | some rest2 => parseWithMarks n rest2 marks
        | none => parseWithMarks n rest marks
      else
        let run := (c :: rest).takeWhile (fun ch => !(ch = '<'))
        let rest2 := (c :: rest).dropWhile (fun ch => !(ch = '<'))
        TNode.text (String.mk run) marks :: parseWithMarks n rest2 marks

/-- One step of the post-processing pass of `parseInlineContent`: a node
with falsy or empty `text` is dropped (only text runs reach this loop), and
a run whose mark list equals that of the previous kept run is merged into
it (the `JSON.stringify` comparison of the source).  A kept run following a
non-text node cannot occur, since the walk emits text runs only. -/
def cleanStep (cleaned : List TNode) (node : TNode) : List TNode :=
  match node with
  | TNode.text t m =>
    if t = "" then cleaned
    else
      match cleaned.getLast? with
      | some (TNode.text lt lm) =>
        if lm = m then cleaned.dropLast ++ [TNode.text (lt ++ t) lm]
        else cleaned ++ [node]
      | _ => cleaned ++ [node]
  | _ => cleaned

/-- The post-processing pass of `parseInlineContent`. -/
def cleanupInline (l : List TNode) : List TNode :=
  l.foldl cleanStep []

/-- Text of a run (empty for non-text nodes), as a character list. -/
def nodeTextOf : TNode → List Char
  | TNode.text t _ => t.data
  | _ => []

/-- Mark list of a run (empty for non-text nodes). -/
def nodeMarksOf : TNode → List Mark
  | TNode.text _ m => m
  | _ => []

/-- Adjacent-run relation after cleanup: mark lists differ. -/
def marksDiffer (a b : TNode) : Prop := ¬ nodeMarksOf a = nodeMarksOf b

/-- Concatenated text content of a run list. -/
def textConcat : List TNode → List Char
  | [] => []
  | n :: l => nodeTextOf n ++ textConcat l

/-- The `parseInlineContent` function. -/
def parseInlineContent (html : String) : List TNode :=
  if html = "" then []
  else
    let t := entityDecode html
    cleanupInline (parseWithMarks (t.data.length + 1) t.data [])

/-- List-level convenience wrapper. -/
def parseInlineContentL (l : List Char) : List TNode :=
  parseInlineContent (String.mk l)

/-! ### Block-level conversion (`convertHtmlToTipTapJson`) -/

/-- Attribute matcher `src=["']([^"']+)["']` (case-insensitive). -/
def trySrcAttr (s : List Char) : Option (List Char × List Char) :=
  match matchLitCI "src=".data s with
  | none => none
  | some (_, r1) =>
    match r1 with
    | q :: r2 =>
      if isQuote q then
        let run := r2.takeWhile (fun c => !(isQuote c))
        let r3 := r2.dropWhile (fun c => !(isQuote c))
        if run.isEmpty then none
        else
          match r3 with
          | _ :: r4 => some (run, r4)
          | [] => none
      else none
    | [] => none

/-- Attribute matcher `alt=["']([^"']*)["']` (empty value allowed). -/
def tryAltAttr (s : List Char) : Option (List Char × List Char) :=
  match matchLitCI "alt=".data s with
  | none => none
  | some (_, r1) =>
    match r1 with
    | q :: r2 =>
      if isQuote q then
        let run := r2.takeWhile (fun c => !(isQuote c))
        let r3 := r2.dropWhile (fun c => !(isQuote c))
        match r3 with
        | _ :: r4 => some (run, r4)
        | [] => none
      else none
    | [] => none

/-- Attribute matcher `width=["']?(\d+)["']?` with optional quotes. -/
def tryNumAttr (name : String) (s : List Char) : Option (List Char × List Char) :=
  match matchLitCI (name.data ++ ['=']) s with
  | none => none
  | some (_, r1) =>
    let r2 := match r1 with
      | q :: r => if isQuote q then r else r1
      | [] => r1
    let digits := r2.takeWhile isDigitCh
    let r3 := r2.dropWhile isDigitCh
    if digits.isEmpty then none
    else
      let r4 := match r3 with
        | q :: r => if isQuote q then r else r3
        | [] => r3
      some (digits, r4)

/-- Digit list to `Nat`, modelling `parseInt` on a digit capture. -/
def parseNatDigits (ds : List Char) : Nat :=
  ds.foldl (fun acc c => acc * 10 + (c.toNat - '0'.toNat)) 0

/-- The `createImageNodeFromImg` helper. -/
def createImageNodeFromImg (imgTag : List Char) : TNode :=
  let src := ((findFirstScan trySrcAttr imgTag).map (fun t => t.2.1)).getD []
  let alt := ((findFirstScan tryAltAttr imgTag).map (fun t => t.2.1)).getD []
  let w := (findFirstScan (tryNumAttr "width") imgTag).map
    (fun t => parseNatDigits t.2.1)
  let h := (findFirstScan (tryNumAttr "height") imgTag).map
    (fun t => parseNatDigits t.2.1)
  TNode.image (String.mk src) (String.mk alt) none w h

/-- Remove every `<[^>]+>` (the tag-stripping global replace). -/
def stripAllTags (s : List Char) : List Char :=
  replaceScan (fun t => (tryGenericTag t).map (fun rest => ([], rest)))
    (s.length + 1) s

/-- The `createParagraphNode` helper. -/
def createParagraphNode (html : List Char) : TNode :=
  TNode.paragraph (some "left") (parseInlineContentL html)

/-- The `createHeadingNode` helper. -/
def createHeadingNode (html : List Char) (level : Nat) : TNode :=
  TNode.heading level (parseInlineContentL html)

/-- The `createBlockquoteNode` helper. -/
def createBlockquoteNode (html : List Char) : TNode :=
  TNode.blockquote [TNode.paragraph (some "left") (parseInlineContentL html)]

/-- The `createCodeBlockNode` helper. -/
def createCodeBlockNode (html : List Char) : TNode :=
  let text := trimChars (stripAllTags html)
  TNode.codeBlock (if text.isEmpty then [] else [TNode.text (String.mk text) []])

/-- Matcher for one `<li[^>]*>...</li>` item. -/
def tryLiTag (s : List Char) : Option (List Char × List Char) :=
  (tryTagPair "li".data s).map (fun pr => (pr.1.2.2, pr.2))

/-- The `createListNode` helper. -/
def createListNode (html : List Char) (ordered : Bool) : TNode :=
  let items := scanG tryLiTag (html.length + 1) html
  let lis := items.map (fun inner =>
    TNode.listItem [TNode.paragraph (some "left") (parseInlineContentL inner)])
  if ordered then TNode.orderedList lis else TNode.bulletList lis

/-- Matcher for one `<tr[^>]*>...</tr>` row. -/
def tryTrTag (s : List Char) : Option (List Char × List Char) :=
  (tryTagPair "tr".data s).map (fun pr => (pr.1.2.2, pr.2))

/-- Matcher for one `<(td|th)[^>]*>...</\1>` cell, alternation order `td`
before `th`; the flag records a header cell. -/
def tryCellTag (s : List Char) : Option ((Bool × List Char) × List Char) :=
  match tryTagPair "td".data s with
  | some pr => some ((false, pr.1.2.2), pr.2)
  | none =>
    match tryTagPair "th".data s with
    | some pr => some ((true, pr.1.2.2), pr.2)
    | none => none

/-- The `createTableNode` helper; rows without cells are dropped, header
cells become `tableHeader`, and cell paragraphs carry no attrs. -/
def createTableNode (html : List Char) : TNode :=
  let rows := scanG tryTrTag (html.length + 1) html
  let rowNodes := rows.filterMap (fun rinner =>
    let cells := scanG tryCellTag (rinner.length + 1) rinner
    if cells.isEmpty then none
    else
      some (TNode.tableRow (cells.map (fun c =>
        (if c.1 then TNode.tableHeader else TNode.tableCell)
          [TNode.paragraph none (parseInlineContentL c.2)]))))
  TNode.table rowNodes

/-- Anchored matcher for `<img[^>]+src=["']([^"']+)["'][^>]*>`: tries the
`[^>]+` prefix greedily from the longest candidate (so the last `src=`
inside the non-`>` run wins, as under backtracking), returning the full
matched tag text and the `src` capture. -/
def tryImgWithSrc (s : List Char) : Option (List Char × List Char) :=
  match matchLitCI "<img".data s with
  | none => none
  | some (openc, full) =>
    let r0 := full.takeWhile (fun c => !(c = '>'))
    ((List.range (r0.length + 1)).reverse.filter (fun i => 1 ≤ i)).findSome?
      (fun i =>
        match matchLitCI "src=".data (full.drop i) with
        | none => none
        | some (_, afterSrc) =>
          match afterSrc with
          | q :: r2 =>
            if isQuote q then
              let v := r2.takeWhile (fun c => !(isQuote c))
              let r3 := r2.dropWhile (fun c => !(isQuote c))
              if v.isEmpty then none
              else
                match r3 with
                | _ :: r4 =>
                  let y := r4.takeWhile (fun c => !(c = '>'))
                  let r5 := r4.dropWhile (fun c => !(c = '>'))
                  match r5 with
                  | '>' :: _ =>
                    let fullLen := i + 4 + 1 + v.length + 1 + y.length + 1
                    some (openc ++ full.take fullLen, v)
                  | _ => none
                | [] => none
            else none
          | [] => none)

/-- Leftmost occurrence scan for `tryImgWithSrc`. -/
def figImgScan : Nat → List Char → Option (List Char × List Char)
  | 0, _ => none
  | _ + 1, [] => none
  | n + 1, c :: rest =>
    match tryImgWithSrc (c :: rest) with
    | some r => some r
    | none => figImgScan n rest

/-- Matcher for `<figcaption[^>]*>...</figcaption>` (case-insensitive). -/
def tryFigcaption (s : List Char) : Option (List Char × List Char) :=
  (tryTagPair "figcaption".data s).map (fun pr => (pr.1.2.2, pr.2))

/-- The `createImageNodeFromFigure` helper; `none` when the figure body has
no image tag with a `src`. -/
def createImageNodeFromFigure (html : List Char) : Option TNode :=
  match figImgScan (html.length + 1) html with
  | none => none
  | some (imgFull, src) =>
    let alt := ((findFirstScan tryAltAttr imgFull).map (fun t => t.2.1)).getD []
    let w := (findFirstScan (tryNumAttr "width") imgFull).map
      (fun t => parseNatDigits t.2.1)
    let h := (findFirstScan (tryNumAttr "height") imgFull).map
      (fun t => parseNatDigits t.2.1)
    let cap := match findFirstScan tryFigcaption html with
      | some t => some (String.mk (trimChars (stripAllTags t.2.1)))
      | none => none
    some (TNode.image (String.mk src) (String.mk alt) cap w h)

/-- The `parseStandaloneContent` helper: split text and standalone image
runs; text pieces survive only when stripping tags leaves visible text; an
input with no recognised pieces falls back to one paragraph of the whole
input. -/
def imgSegScan : Nat → List Char → List Char →
    List (List Char × List Char) × List Char
  | 0, pend, s => ([], pend.reverse ++ s)
  | _ + 1, pend, [] => ([], pend.reverse)
  | n + 1, pend, c :: rest =>
    match tryImgTag (c :: rest) with
    | some (img, rest2) =>
      let pr := imgSegScan n [] rest2
      ((pend.reverse, img) :: pr.1, pr.2)
    | none => imgSegScan n (c :: pend) rest

/-- Visible-text test used before emitting a text paragraph. -/
def hasVisibleText (s : List Char) : Bool :=
  !(trimChars (stripAllTags s)).isEmpty

/-- The `parseStandaloneContent` function. -/
def parseStandaloneContent (html : List Char) : List TNode :=
  let pr := imgSegScan (html.length + 1) [] html
  let nodes := pr.1.flatMap (fun seg =>
    let tb := trimChars seg.1
    (if !(tb.isEmpty) && hasVisibleText tb then [createParagraphNode tb] else [])
      ++ [createImageNodeFromImg seg.2])
  let ta := trimChars pr.2
  let nodes := nodes ++
    (if !(ta.isEmpty) && hasVisibleText ta then [createParagraphNode ta] else [])
  if nodes.isEmpty then [createParagraphNode html] else nodes

/-- The block tag vocabulary, in the alternation order of
`(p|h[1-6]|ul|ol|blockquote|figure|div|table|pre|hr)`. -/
def blockTags : List (List Char) :=
  ["p", "h1", "h2", "h3", "h4", "h5", "h6", "ul", "ol", "blockquote",
    "figure", "div", "table", "pre", "hr"].map String.data

/-- One item found by the block pattern: raw text between matches, a
tag-pair block, or a self-closing `hr`/`br`. -/
inductive BlockItem where
  | text (s : List Char)
  | tagged (tag : String) (inner : List Char)
  | selfTag (tag : String)
deriving Repr

/-- Branch 2 of the block pattern: `<(hr|br)\s*\/?>`. -/
def tryHrBr (s : List Char) : Option (String × List Char) :=
  match s with
  | '<' :: r1 =>
    (["hr", "br"].map String.data).findSome? (fun t =>
      match matchLitCI t r1 with
      | none => none
      | some (_, r2) =>
        let r3 := r2.dropWhile Char.isWhitespace
        let r4 := match r3 with
          | '/' :: r => r
          | r => r
        match r4 with
        | '>' :: r5 => some (String.mk t, r5)
        | _ => none)
  | _ => none

/-- Anchored matcher of the whole block pattern. -/
def tryBlock (s : List Char) : Option (BlockItem × List Char) :=
  match blockTags.findSome? (fun t => tryTagPair t s) with
  | some ((tag, _, inner), rest) => some (BlockItem.tagged tag inner, rest)
  | none =>
    match tryHrBr s with
    | some (tag, rest) => some (BlockItem.selfTag tag, rest)
    | none => none

/-- The block scan: text between matches is kept as `BlockItem.text`. -/
def blockScan : Nat → List Char → List Char → List BlockItem
  | 0, pend, s => if (pend.reverse ++ s).isEmpty then [] else [BlockItem.text (pend.reverse ++ s)]
  | _ + 1, pend, [] => if pend.isEmpty then [] else [BlockItem.text pend.reverse]
  | n + 1, pend, c :: rest =>
    match tryBlock (c :: rest) with
    | some (item, rest2) =>
      (if pend.isEmpty then [] else [BlockItem.text pend.reverse]) ++
        item :: blockScan n [] rest2
    | none => blockScan n (c :: pend) rest

/-- The `convertHtmlToTipTapJson` function (with `parseBlockContent` folded
into the `div` case, which recurses on the block body).  The fuel bounds the
`div` nesting depth; the top-level wrapper supplies the input length, which
dominates any possible nesting. -/
def convertCore : Nat → String → Option TNode
  | 0, _ => none
  | n + 1, html =>
    if html = "" then none
    else
      let clean := preprocessWordPressContent html
      let items := blockScan (clean.data.length + 1) [] clean.data
      let nodes := items.flatMap (fun it =>
        match it with
        | BlockItem.text s =>
          let t := trimChars s
          if t.isEmpty then [] else parseStandaloneContent t
        | BlockItem.selfTag tag =>
          if tag = "hr" then [TNode.horizontalRule] else [createParagraphNode []]
        | BlockItem.tagged tag inner =>
          match tag with
          | "p" =>
            match findFirstScan tryImgTag inner with
            | some t =>
              if (trimChars (stripImgTags inner)).isEmpty then
                [createImageNodeFromImg t.2.1]
              else [createParagraphNode inner]
            | none => [createParagraphNode inner]
          | "h1" => [createHeadingNode inner 1]
          | "h2" => [createHeadingNode inner 2]
          | "h3" => [createHeadingNode inner 3]
          | "h4" => [createHeadingNode inner 4]
          | "h5" => [createHeadingNode inner 5]
          | "h6" => [createHeadingNode inner 6]
          | "ul" => [createListNode inner false]
          | "ol" => [createListNode inner true]
          | "blockquote" => [createBlockquoteNode inner]
          | "figure" =>
            match createImageNodeFromFigure inner with
            | some nd => [nd]
            | none => []
          | "table" => [createTableNode inner]
          | "pre" => [createCodeBlockNode inner]
          | "hr" => [TNode.horizontalRule]
          | "div" =>
            match convertCore n (String.mk inner) with
            | some (TNode.doc c) => c
            | _ => []
          | _ => [createParagraphNode inner])
      let nodes2 :=
        if nodes.isEmpty && !(clean = "") then [createParagraphNode clean.data]
        else nodes
      some (TNode.doc nodes2)

/-- Top-level wrapper with fuel seeded from the input length. -/
def convertHtmlToTipTapJson (html : String) : Option TNode :=
  convertCore (html.data.length + 1) html

/-! ### URL rewriting in the document tree (`replaceUrlsInTipTapJson`) -/

/-- JavaScript `Map.get` on an insertion-ordered association list. -/
def mapGet (m : List (String × String)) (k : String) : Option String :=
  (m.find? (fun p => p.1 = k)).map (fun p => p.2)

/-- JavaScript `Map.set`: update in place, else append. -/
def mapSet (m : List (String × String)) (k v : String) : List (String × String) :=
  if m.any (fun p => p.1 = k) then
    m.map (fun p => if p.1 = k then (k, v) else p)
  else m ++ [(k, v)]

/-- The per-src rewrite of `processNode`: a site-relative uploads path is
looked up under the base URL, a src merely containing the uploads path is
looked up verbatim, and a hit becomes the canonical `/assets/{id}` path;
everything else is untouched. -/
def rewriteImageSrc (baseUrl : String) (m : List (String × String))
    (src : String) : String :=
  if strStartsWith src "/wp-content/uploads/" then
    match mapGet m (baseUrl ++ src) with
    | some uuid => "/assets/" ++ uuid
    | none => src
  else if strIncludes src "/wp-content/uploads/" then
    match mapGet m src with
    | some uuid => "/assets/" ++ uuid
    | none => src
  else src

mutual

/-- The recursive `processNode` of `replaceUrlsInTipTapJson`: an image node
with a truthy `src` has the src rewritten; children are processed
recursively; nothing else changes. -/
def processNodeUrls (baseUrl : String) (m : List (String × String)) :
    TNode → TNode
  | TNode.text t mk => TNode.text t mk
  | TNode.image src alt cap w h =>
    if src = "" then TNode.image src alt cap w h
    else TNode.image (rewriteImageSrc baseUrl m src) alt cap w h
  | TNode.paragraph a c => TNode.paragraph a (processNodeListUrls baseUrl m c)
  | TNode.heading lv c => TNode.heading lv (processNodeListUrls baseUrl m c)
  | TNode.bulletList c => TNode.bulletList (processNodeListUrls baseUrl m c)
  | TNode.orderedList c => TNode.orderedList (processNodeListUrls baseUrl m c)
  | TNode.listItem c => TNode.listItem (processNodeListUrls baseUrl m c)
  | TNode.blockquote c => TNode.blockquote (processNodeListUrls baseUrl m c)
  | TNode.codeBlock c => TNode.codeBlock (processNodeListUrls baseUrl m c)
  | TNode.horizontalRule => TNode.horizontalRule
  | TNode.table c => TNode.table (processNodeListUrls baseUrl m c)
  | TNode.tableRow c => TNode.tableRow (processNodeListUrls baseUrl m c)
  | TNode.tableHeader c => TNode.tableHeader (processNodeListUrls baseUrl m c)
  | TNode.tableCell c => TNode.tableCell (processNodeListUrls baseUrl m c)
  | TNode.doc c => TNode.doc (processNodeListUrls baseUrl m c)

/-- Child-list traversal of `processNode`. -/
def processNodeListUrls (baseUrl : String) (m : List (String × String)) :
    List TNode → List TNode
  | [] => []
  | n :: l => processNodeUrls baseUrl m n :: processNodeListUrls baseUrl m l

end

/-- The `replaceUrlsInTipTapJson` entry point: the root object is spread
with its content mapped through `processNode`; a root without content
(text, image, rule) is returned unchanged — the root node itself is not
rewritten. -/
def replaceUrlsInTipTapJson (baseUrl : String) (m : List (String × String)) :
    TNode → TNode
  | TNode.text t mk => TNode.text t mk
  | TNode.image src alt cap w h => TNode.image src alt cap w h
  | TNode.horizontalRule => TNode.horizontalRule
  | TNode.paragraph a c => TNode.paragraph a (processNodeListUrls baseUrl m c)
  | TNode.heading lv c => TNode.heading lv (processNodeListUrls baseUrl m c)
  | TNode.bulletList c => TNode.bulletList (processNodeListUrls baseUrl m c)
  | TNode.orderedList c => TNode.orderedList (processNodeListUrls baseUrl m c)
  | TNode.listItem c => TNode.listItem (processNodeListUrls baseUrl m c)
  | TNode.blockquote c => TNode.blockquote (processNodeListUrls baseUrl m c)
  | TNode.codeBlock c => TNode.codeBlock (processNodeListUrls baseUrl m c)
  | TNode.table c => TNode.table (processNodeListUrls baseUrl m c)
  | TNode.tableRow c => TNode.tableRow (processNodeListUrls baseUrl m c)
  | TNode.tableHeader c => TNode.tableHeader (processNodeListUrls baseUrl m c)
  | TNode.tableCell c => TNode.tableCell (processNodeListUrls baseUrl m c)
  | TNode.doc c => TNode.doc (processNodeListUrls baseUrl m c)

mutual

/-- Specification-side combinator: apply a function to the src of every
image node, recursively, leaving every other field of every node
unchanged. -/
def mapImageSrc (f : String → String) : TNode → TNode
  | TNode.text t mk => TNode.text t mk
  | TNode.image src alt cap w h => TNode.image (f src) alt cap w h
  | TNode.paragraph a c => TNode.paragraph a (mapImageSrcList f c)
  | TNode.heading lv c => TNode.heading lv (mapImageSrcList f c)
  | TNode.bulletList c => TNode.bulletList (mapImageSrcList f c)
  | TNode.orderedList c => TNode.orderedList (mapImageSrcList f c)
  | TNode.listItem c => TNode.listItem (mapImageSrcList f c)
  | TNode.blockquote c => TNode.blockquote (mapImageSrcList f c)
  | TNode.codeBlock c => TNode.codeBlock (mapImageSrcList f c)
  | TNode.horizontalRule => TNode.horizontalRule
  | TNode.table c => TNode.table (mapImageSrcList f c)
  | TNode.tableRow c => TNode.tableRow (mapImageSrcList f c)
  | TNode.tableHeader c => TNode.tableHeader (mapImageSrcList f c)
  | TNode.tableCell c => TNode.tableCell (mapImageSrcList f c)
  | TNode.doc c => TNode.doc (mapImageSrcList f c)

/-- Child-list traversal of `mapImageSrc`. -/
def mapImageSrcList (f : String → String) : List TNode → List TNode
  | [] => []
  | n :: l => mapImageSrc f n :: mapImageSrcList f l

end

/-! ### Migration tracking store and world state

The two PostgreSQL databases (Directus target and migration tracking), the
in-memory URL cache and the log of `/files/import` calls are collected in a
`World` record.  `time` is a logical clock standing in for `NOW()`;
timestamps recorded by the store are values of this clock. -/

structure TrackRow where
  id : Nat
  batchId : Nat
  tableName : String
  oldId : String
  newId : Option String
  status : String
  errorMessage : Option String
  sourceData : Option String
  createdAt : Nat
  updatedAt : Nat
deriving Repr, DecidableEq

structure BatchRow where
  id : Nat
  batchName : String
  description : String
  status : String
  errorMessage : Option String
  completedAt : Option Nat
deriving Repr, DecidableEq

/-- A `post` row.  `dateCreated = none` models the `new Date()` fallback
(migration-time timestamp), while `publishDate`/`dateUpdated` `none` model
SQL `NULL`. -/
structure PostRow where
  id : Int
  status : String
  thumbnail : Option String
  publishDate : Option String
  dateCreated : Option String
  dateUpdated : Option String
  collection : Option Int
  author : Option String
  authorName : Option String
  userCreated : Option String
deriving Repr, DecidableEq

/-- The JSON envelope persisted in the translation content column:
converted tree, post-rewrite HTML, capture timestamp. -/
structure ContentEnvelope where
  json : Option TNode
  html : String
  lastSaved : Nat
deriving Repr

structure PostTranslationRow where
  id : Nat
  postId : Int
  languagesCode : String
  title : String
  description : String
  content : ContentEnvelope
  slug : String
deriving Repr

structure TagTranslationRow where
  id : Nat
  tagId : Int
  languagesCode : String
  name : String
  slug : String
deriving Repr, DecidableEq

structure CollectionRow where
  id : Int
  sort : Int
  isVisible : Bool
  template : Int
  postTemplate : Int
deriving Repr, DecidableEq

structure CollectionTranslationRow where
  id : Nat
  collectionId : Int
  languagesCode : String
  name : String
  slug : String
deriving Repr, DecidableEq

structure PostTagRow where
  id : Nat
  postId : Int
  tagId : Int
deriving Repr, DecidableEq

structure World where
  batches : List BatchRow
  tracking : List TrackRow
  nextBatchId : Nat
  nextTrackId : Nat
  time : Nat
  posts : List PostRow
  postTranslations : List PostTranslationRow
  nextPostTransId : Nat
  tags : List Int
  tagTranslations : List TagTranslationRow
  nextTagTransId : Nat
  collections : List CollectionRow
  collectionTranslations : List CollectionTranslationRow
  nextCollTransId : Nat
  postTags : List PostTagRow
  nextPostTagId : Nat
  urlCache : List (String × String)
  importLog : List String
deriving Repr

/-- A world with empty stores. -/
def emptyWorld : World :=
  { batches := [], tracking := [], nextBatchId := 1, nextTrackId := 1,
    time := 0, posts := [], postTranslations := [], nextPostTransId := 1,
    tags := [], tagTranslations := [], nextTagTransId := 1,
    collections := [], collectionTranslations := [], nextCollTransId := 1,
    postTags := [], nextPostTagId := 1, urlCache := [], importLog := [] }

/-- The command-line configuration subset the core reads. -/
structure Config where
  wpBaseUrl : String
  directusToken : Option String
  folderId : Option String
  authorId : Option String
  authorName : Option String
  postTemplateId : Option Int
  collectionTemplateId : Option Int
deriving Repr

/-- The `createBatch` operation (status defaults to `running`). -/
def createBatch (w : World) (name desc : String) : World × Nat :=
  ({ w with
      batches := w.batches ++
        [{ id := w.nextBatchId, batchName := name, description := desc,
           status := "running", errorMessage := none, completedAt := none }],
      nextBatchId := w.nextBatchId + 1, time := w.time + 1 },
    w.nextBatchId)

/-- The `completeBatch` operation. -/
def completeBatch (w : World) (batchId : Nat) (status : String)
    (errorMessage : Option String) : World :=
  { w with
    batches := w.batches.map (fun b =>
      if b.id = batchId then
        { b with
          status := status, completedAt := some w.time,
          errorMessage := errorMessage }
      else b),
    time := w.time + 1 }

/-- Key predicate of the `migration_data` unique constraint
`(table_name, old_id, batch_id)`. -/
def trackKeyIs (tableName oldId : String) (batchId : Nat) (r : TrackRow) : Bool :=
  r.tableName == tableName && r.oldId == oldId && r.batchId == batchId

/-- The `trackMigration` upsert: `INSERT ... ON CONFLICT (table_name,
old_id, batch_id) DO UPDATE SET new_id, status, error_message,
updated_at = NOW()` — the conflict update touches neither `source_data` nor
`created_at`. -/
def trackMigration (w : World) (batchId : Nat) (tableName oldId : String)
    (newId : Option String) (status : String) (sourceData : Option String)
    (errorMessage : Option String) : World :=
  if w.tracking.any (trackKeyIs tableName oldId batchId) then
    { w with
      tracking := w.tracking.map (fun r =>
        if trackKeyIs tableName oldId batchId r then
          { r with
            newId := newId, status := status,
            errorMessage := errorMessage, updatedAt := w.time }
        else r),
      time := w.time + 1 }
  else
    { w with
      tracking := w.tracking ++
        [{ id := w.nextTrackId, batchId := batchId, tableName := tableName,
           oldId := oldId, newId := newId, status := status,
           errorMessage := errorMessage, sourceData := sourceData,
           createdAt := w.time, updatedAt := w.time }],
      nextTrackId := w.nextTrackId + 1, time := w.time + 1 }

/-- Latest row by `created_at` (`ORDER BY created_at DESC LIMIT 1`). -/
def latestByCreated (rows : List TrackRow) : Option TrackRow :=
  rows.foldl (fun acc r =>
    match acc with
    | none => some r
    | some a => if a.createdAt < r.createdAt then some r else some a) none

/-- The `getMigratedId` query; `result.rows[0]?.new_id || null` maps both a
missing row and a falsy (null or empty) `new_id` to `null`. -/
def getMigratedId (w : World) (tableName oldId : String) : Option String :=
  let rows := w.tracking.filter (fun r =>
    r.tableName == tableName && r.oldId == oldId && r.status == "success")
  match latestByCreated rows with
  | none => none
  | some r =>
    match r.newId with
    | none => none
    | some s => if s = "" then none else some s

/-- The `isAlreadyMigrated` query. -/
def isAlreadyMigrated (w : World) (tableName oldId : String) : Bool :=
  w.tracking.any (fun r =>
    r.tableName == tableName && r.oldId == oldId && r.status == "success")

/-! ### Media importer (`importMediaUrl`)

The Directus `/files/import` call is an oracle `String → Except String
String` (asset id on success, error message on failure); each call is
appended to `importLog`. -/

/-- The error message composed by `importFileToDirectus` on failure. -/
def importErrorMsg (e url : String) : String :=
  "Import failed: " ++ e ++ " (url: " ++ url ++ ")"

/-- The `importMediaUrl` function: in-memory cache, then tracking store,
then the remote import with outcome persisted before returning; a failure
returns `none` (the surrounding migration proceeds). -/
def importMediaUrl (oracle : String → Except String String) (w : World)
    (batchId : Nat) (url : String) : World × Option String :=
  match mapGet w.urlCache url with
  | some uuid => (w, some uuid)
  | none =>
    match getMigratedId w "directus_files" url with
    | some existing =>
      ({ w with urlCache := mapSet w.urlCache url existing }, some existing)
    | none =>
      let w1 := { w with importLog := w.importLog ++ [url] }
      match oracle url with
      | Except.ok newId =>
        let w2 := trackMigration w1 batchId "directus_files" url (some newId)
          "success" (some url) none
        let w3 := { w2 with urlCache := mapSet w2.urlCache url newId }
        (w3, some newId)
      | Except.error e =>
        let w2 := trackMigration w1 batchId "directus_files" url none
          "failed" (some url) (some (importErrorMsg e url))
        (w2, none)

/-! ### Language detection and post helpers -/

/-- Thai Unicode block test (`[฀-๿]`). -/
def thaiChar (c : Char) : Bool := 0x0E00 ≤ c.toNat && c.toNat ≤ 0x0E7F

/-- The Vietnamese character class of `detectLanguage` exactly as stored in
the repository file, which holds the class in a mojibake form; the test is
case-insensitive in the source (`/i`), approximated here through ASCII-range
case folding (adequate: the claims do not depend on this heuristic). -/
def vietCharClass : List Char :=
  [0x221A, 0x2020, 0xB0, 0xB7, 0x222B, 0xA3, 0xA2, 0xDF, 0x2022, 0x2260,
   0xA9, 0xB4, 0x192, 0xC9, 0xB1, 0xD8, 0x2211, 0x2265, 0xB5, 0xAE,
   0x3C0, 0xAA, 0x3A9, 0x2122, 0xC5, 0xF8, 0xE1, 0xD6, 0xA8, 0xE3,
   0xE2, 0x2264, 0xE7, 0xE8, 0xA5, 0xEC, 0xEB, 0xF4, 0xEF, 0xF3,
   0x2206, 0xF9, 0xF5, 0xFC, 0x2248, 0x221E].map Char.ofNat

/-- Membership in the mojibake class, folding ASCII case. -/
def vietCharTest (c : Char) : Bool :=
  vietCharClass.any (fun v => lowChar v = lowChar c)

/-- The undiacritized Vietnamese stop-word list of `detectLanguage`,
transcribed in order (duplicates included). -/
def vietWordList : List String :=
  ["nha", "cua", "viec", "giup", "don", "dep", "ve", "sinh", "may", "lanh",
   "giat", "ui", "nau", "an", "gia", "dinh", "theo", "gio", "dich", "vu",
   "khach", "hang", "cong", "dong", "btasker", "btaskee", "khuyen", "mai",
   "thong", "cao", "bao", "chi", "tuyen", "dung", "meo", "vat", "thu",
   "cung", "cach", "su", "dung", "khac", "van", "chuyen", "ngay", "le",
   "mon", "ngon", "thuc", "don", "van", "phong", "mua", "sam"]

/-- Word-boundary occurrence test for `\b(word)\b` with the ASCII `\w`
class, case-insensitive. -/
def findWordCI (w : List Char) : Option Char → List Char → Bool
  | _, [] => false
  | prev, c :: rest =>
    ((match prev with
      | none => true
      | some p => !(isWordCh p)) &&
     (match matchLitCI w (c :: rest) with
      | some (_, after) =>
        match after with
        | [] => true
        | a :: _ => !(isWordCh a)
      | none => false))
    || findWordCI w (some c) rest

/-- The `detectLanguage` heuristic. -/
def detectLanguage (text : String) : String :=
  if text.data.any thaiChar then "th-TH"
  else if text.data.any vietCharTest then "vi-VN"
  else if vietWordList.any (fun wd => findWordCI wd.data none text.data) then "vi-VN"
  else "en-VN"

/-- The `mapPostStatus` table with default `draft`. -/
def mapPostStatus (wp : String) : String :=
  if wp = "publish" then "published"
  else if wp = "draft" then "draft"
  else if wp = "pending" then "draft"
  else if wp = "private" then "draft"
  else if wp = "trash" then "archived"
  else "draft"

/-- The fields of a CSV post record used by the migrator. -/
structure WpPost where
  ID : String
  post_title : String
  post_name : String
  post_content : String
  post_excerpt : String
  post_status : String
  post_date : String
  post_modified : String
deriving Repr, DecidableEq

/-- View of a header-keyed CSV record as a `WpPost` (missing properties read
as empty). -/
def toWpPost (r : Record) : WpPost :=
  { ID := (getField r "ID").getD "",
    post_title := (getField r "post_title").getD "",
    post_name := (getField r "post_name").getD "",
    post_content := (getField r "post_content").getD "",
    post_excerpt := (getField r "post_excerpt").getD "",
    post_status := (getField r "post_status").getD "",
    post_date := (getField r "post_date").getD "",
    post_modified := (getField r "post_modified").getD "" }

/-- Step 2 of the post migration: for each cached `(url, uuid)` entry in
insertion order, globally replace the url by `/assets/{uuid}` when
present. -/
def applyCacheReplacements (cache : List (String × String)) (html : String) :
    String :=
  cache.foldl (fun acc pr =>
    if strIncludes acc pr.1 then strReplaceAll acc pr.1 ("/assets/" ++ pr.2)
    else acc) html

/-- The localhost rewrite of step 2
(`/http:\/\/localhost:\d+\/wp-content\/uploads\/([^"'\s]+)/g`, case
sensitive): a cached full URL becomes the asset path, otherwise the matched
text is kept. -/
def tryLocalhostRepl (cache : List (String × String)) (baseUrl : String)
    (s : List Char) : Option (List Char × List Char) :=
  match matchLit "http://localhost:".data s with
  | none => none
  | some r1 =>
    let digits := r1.takeWhile isDigitCh
    let r2 := r1.dropWhile isDigitCh
    if digits.isEmpty then none
    else
      match matchLit "/wp-content/uploads/".data r2 with
      | none => none
      | some r3 =>
        let cls := fun c => !(isQuote c) && !(c.isWhitespace)
        let fp := r3.takeWhile cls
        let r4 := r3.dropWhile cls
        if fp.isEmpty then none
        else
          let matched := s.take (s.length - r4.length)
          match mapGet cache (baseUrl ++ "/wp-content/uploads/" ++ String.mk fp) with
          | some uuid => some (("/assets/" ++ uuid).data, r4)
          | none => some (matched, r4)

/-- String wrapper for the localhost rewrite. -/
def replaceLocalhostUrls (cache : List (String × String)) (baseUrl : String)
    (html : String) : String :=
  String.mk (replaceScan (tryLocalhostRepl cache baseUrl)
    (html.data.length + 1) html.data)

/-- The `buildTipTapContent` envelope. -/
def buildTipTapContent (html : String) (tiptap : Option TNode) (now : Nat) :
    ContentEnvelope :=
  { json := tiptap, html := html, lastSaved := now }

/-- Integer cast of a text parameter bound to a PostgreSQL `integer`
column (the cast the `post.id` insert relies on). -/
def strToIntM (s : String) : Option Int :=
  match s.data with
  | '-' :: ds =>
    if !ds.isEmpty && ds.all isDigitCh then some (-(parseNatDigits ds : Int))
    else none
  | ds =>
    if !ds.isEmpty && ds.all isDigitCh then some (parseNatDigits ds : Int)
    else none

/-- Upsert into `post` — `ON CONFLICT (id) DO UPDATE` sets every column
except `date_created` (and the key). -/
def upsertPost (rows : List PostRow) (r : PostRow) : List PostRow :=
  if rows.any (fun p => p.id == r.id) then
    rows.map (fun p => if p.id == r.id then { r with dateCreated := p.dateCreated } else p)
  else rows ++ [r]

/-- Upsert into `post_translations` on `(post_id, languages_code)` —
`DO UPDATE` sets title, description, content and slug; an insert draws a
fresh serial id. -/
def upsertPostTranslation (rows : List PostTranslationRow) (nextId : Nat)
    (r : PostTranslationRow) : List PostTranslationRow × Nat :=
  if rows.any (fun p => p.postId == r.postId && p.languagesCode == r.languagesCode) then
    (rows.map (fun p =>
      if p.postId == r.postId && p.languagesCode == r.languagesCode then
        { p with
          title := r.title, description := r.description,
          content := r.content, slug := r.slug }
      else p), nextId)
  else (rows ++ [{ r with id := nextId }], nextId + 1)

/-- Result of `migrateSingleWpPost`. -/
inductive MigrateResult where
  | success (postId : String) (imagesImported : Nat)
  | skipped (postId : String)
  | failed (postId : String) (error : String)
deriving Repr, DecidableEq

/-- The `migrateSingleWpPost` procedure: skip when a `success` record for
`('post', oldId)` exists; otherwise extract media, import each URL (first
returned asset id becomes the thumbnail), rewrite the HTML through the
cache and the localhost pattern, convert to the document tree, rewrite tree
srcs, upsert the post and translation rows, and record success.  The only
modelled failure is the integer cast of the post id (remote import failures
are absorbed by `importMediaUrl`). -/
def migrateSingleWpPost (oracle : String → Except String String)
    (cfg : Config) (w : World) (batchId : Nat) (post : WpPost)
    (mapping : List (String × Int)) : World × MigrateResult :=
  let oldId := post.ID
  if isAlreadyMigrated w "post" oldId then (w, MigrateResult.skipped oldId)
  else
    let urls := extractMediaUrls cfg.wpBaseUrl post.post_content
    let step1 := urls.foldl (fun acc url =>
      let pr := importMediaUrl oracle acc.1 batchId url
      (pr.1,
        match acc.2, pr.2 with
        | none, some u => some u
        | th, _ => th)) (w, (none : Option String))
    let w1 := step1.1
    let thumb := step1.2
    let t1 := applyCacheReplacements w1.urlCache post.post_content
    let t2 := replaceLocalhostUrls w1.urlCache cfg.wpBaseUrl t1
    let tiptap := (convertHtmlToTipTapJson t2).map
      (fun d => replaceUrlsInTipTapJson cfg.wpBaseUrl w1.urlCache d)
    let contentJson := buildTipTapContent t2 tiptap w1.time
    let status := mapPostStatus post.post_status
    let publishDate := if post.post_date = "" then none else some post.post_date
    let dateCreated := if post.post_date = "" then none else some post.post_date
    let dateUpdated := if post.post_modified = "" then none else some post.post_modified
    let collectionId :=
      match (mapping.find? (fun p => p.1 == post.post_name)).map (fun p => p.2) with
      | some cid => if w1.collections.any (fun c => c.id == cid) then some cid else none
      | none => none
    let langCode := detectLanguage
      (if post.post_title = "" then post.post_name else post.post_title)
    match strToIntM post.ID with
    | none =>
      let wf := trackMigration w1 batchId "post" oldId none "failed"
        (some oldId) (some "invalid input syntax for type integer")
      (wf, MigrateResult.failed oldId "invalid input syntax for type integer")
    | some pid =>
      let newRow : PostRow :=
        { id := pid, status := status, thumbnail := thumb,
          publishDate := publishDate, dateCreated := dateCreated,
          dateUpdated := dateUpdated, collection := collectionId,
          author := cfg.authorId, authorName := cfg.authorName,
          userCreated := cfg.authorId }
      let w2 := { w1 with posts := upsertPost w1.posts newRow }
      let trRow : PostTranslationRow :=
        { id := 0, postId := pid, languagesCode := langCode,
          title := post.post_title, description := post.post_excerpt,
          content := contentJson, slug := post.post_name }
      let upres := upsertPostTranslation w2.postTranslations
        w2.nextPostTransId trRow
      let w3 := { w2 with
        postTranslations := upres.1, nextPostTransId := upres.2 }
      let w4 := trackMigration w3 batchId "post" oldId (some oldId) "success"
        (some oldId) none
      (w4, MigrateResult.success oldId urls.length)

/-! ### Entity migrators and the orchestrator (`runMigration`)

The data files read by the migrators become optional fields of
`MigrationEnv` (`none` models a missing file), and the Directus import
endpoint is the same oracle used by `importMediaUrl`.  Database inserts are
modelled as never failing (the only exception the orchestrator can see is
the missing-template throw of `migrateCategories`); the fixed-size chunking
of `migrateWpPosts` affects logging and pacing only, so the outcome is the
plain fold over the filtered posts. -/

structure TagJson where
  tag_id : Int
  name : String
  slug : String
deriving Repr, DecidableEq

structure CatData where
  id : Int
  priority : Int
deriving Repr, DecidableEq

structure PostTagJson where
  post_id : Option Int
  tag_id : Option Int
  languages_id : Option Int
deriving Repr, DecidableEq

structure MigrationEnv where
  config : Config
  tagsFile : Option (List TagJson)
  categoryFile : Option (List (String × CatData))
  postCategoryFile : Option (List (String × Int))
  postTagsFile : Option (List PostTagJson)
  wpPostsFile : Option (List String)
  oracle : String → Except String String

/-- JavaScript truthiness of an optional string (null or empty is falsy). -/
def truthyStr : Option String → Bool
  | none => false
  | some s => !(s = "")

/-- JavaScript truthiness of an optional number (null or 0 is falsy). -/
def truthyInt : Option Int → Bool
  | none => false
  | some v => !(v = 0)

/-- One iteration of the `migrateTags` loop: an unmigrated tag id is
inserted (`ON CONFLICT (id) DO NOTHING`) and tracked as a success. -/
def migrateTagStep (batchId : Nat) (w : World) (tag : TagJson) : World :=
  let oldId := toString tag.tag_id
  if isAlreadyMigrated w "tag" oldId then w
  else
    let w1 := if w.tags.any (fun t => t == tag.tag_id) then w
      else { w with tags := w.tags ++ [tag.tag_id] }
    trackMigration w1 batchId "tag" oldId (some oldId) "success"
      (some tag.name) none

/-- The `migrateTags` procedure. -/
def migrateTags (env : MigrationEnv) (w : World) (batchId : Nat)
    (limit : Nat) : World :=
  match env.tagsFile with
  | none => w
  | some tags0 =>
    (if 0 < limit then tags0.take limit else tags0).foldl
      (migrateTagStep batchId) w

/-- One iteration of the `migrateTagTranslations` loop: `ON CONFLICT DO
NOTHING RETURNING id` — a conflicting insert returns no row and is then not
tracked. -/
def migrateTagTransStep (batchId : Nat) (w : World) (tag : TagJson) : World :=
  let oldId := toString tag.tag_id ++ "_vi-VN"
  if isAlreadyMigrated w "tag_translations" oldId then w
  else if w.tagTranslations.any (fun r =>
      r.tagId == tag.tag_id && r.languagesCode == "vi-VN") then w
  else
    let rid := w.nextTagTransId
    let w1 := { w with
      tagTranslations := w.tagTranslations ++
        [{ id := rid, tagId := tag.tag_id, languagesCode := "vi-VN",
           name := tag.name, slug := tag.slug }],
      nextTagTransId := rid + 1 }
    trackMigration w1 batchId "tag_translations" oldId
      (some (toString rid)) "success" (some tag.name) none

/-- The `migrateTagTranslations` procedure. -/
def migrateTagTranslations (env : MigrationEnv) (w : World) (batchId : Nat)
    (limit : Nat) : World :=
  match env.tagsFile with
  | none => w
  | some tags0 =>
    (if 0 < limit then tags0.take limit else tags0).foldl
      (migrateTagTransStep batchId) w

/-- The message of the missing-template throw in `migrateCategories`. -/
def templateErrorMsg : String :=
  "POST_TEMPLATE_ID and COLLECTION_TEMPLATE_ID must be provided via " ++
    "--post-template and --collection-template flags"

/-- Upsert into `collection` — `ON CONFLICT (id) DO UPDATE` sets every
non-key column. -/
def upsertCollection (rows : List CollectionRow) (r : CollectionRow) :
    List CollectionRow :=
  if rows.any (fun c => c.id == r.id) then
    rows.map (fun c => if c.id == r.id then r else c)
  else rows ++ [r]

/-- The `migrateCategories` procedure: after reading and de-duplicating the
category file it throws when either template id is falsy — tags have
already been processed by then; with templates present each unmigrated
collection is upserted and tracked. -/
def migrateCategories (env : MigrationEnv) (w : World) (batchId : Nat)
    (limit : Nat) : Except String World :=
  match env.categoryFile with
  | none => Except.ok w
  | some cats =>
    let uniq := cats.foldl (fun acc pr =>
      if acc.any (fun q => q.2.id == pr.2.id) then acc else acc ++ [pr]) []
    if !(truthyInt env.config.postTemplateId &&
         truthyInt env.config.collectionTemplateId) then
      Except.error templateErrorMsg
    else
      match env.config.postTemplateId, env.config.collectionTemplateId with
      | some pt, some ct =>
        let toProcess := if 0 < limit then uniq.take limit else uniq
        Except.ok (toProcess.foldl (fun w pr =>
          let oldId := toString pr.2.id
          if isAlreadyMigrated w "collection" oldId then w
          else
            let row : CollectionRow :=
              { id := pr.2.id, sort := pr.2.priority, isVisible := true,
                template := ct, postTemplate := pt }
            let w1 := { w with collections := upsertCollection w.collections row }
            trackMigration w1 batchId "collection" oldId (some oldId)
              "success" (some pr.1) none) w)
      | _, _ =>
        Except.error templateErrorMsg

/-- One `[^a-z0-9]+` run collapsed to a dash. -/
def tryNonAlnumDash (s : List Char) : Option (List Char × List Char) :=
  match s with
  | [] => none
  | c :: _ =>
    let ok := fun d => (('a' ≤ d && d ≤ 'z') || ('0' ≤ d && d ≤ '9'))
    if ok c then none
    else some (['-'], s.dropWhile (fun d => !(ok d)))

/-- Removal of the single leading and trailing dash (`/^-|-$/g`). -/
def trimOneDash (s : List Char) : List Char :=
  let s1 := match s with
    | '-' :: r => r
    | r => r
  match s1.reverse with
  | '-' :: r => r.reverse
  | _ => s1

/-- The slug derivation of `migrateCategoryTranslations`.  The
`normalize('NFD')` step is modelled as the identity: the repository file
stores the follow-up replacements (and the category names it processes) in
a mojibake form in which the relevant sequences are already decomposed; the
two explicit replacements target the exact two-character sequences present
in the file.  No claim depends on slug values. -/
def slugify (name : String) : String :=
  let lower := String.mk (name.data.map Char.toLower)
  let stripped := String.mk (lower.data.filter (fun c =>
    !(0x300 ≤ c.toNat && c.toNat ≤ 0x36F)))
  let d1 := strReplaceAll stripped
    (String.mk [Char.ofNat 0x192, Char.ofNat 0xEB]) "d"
  let d2 := strReplaceAll d1
    (String.mk [Char.ofNat 0x192, Char.ofNat 0xEA]) "D"
  let sq := replaceScan tryNonAlnumDash (d2.data.length + 1) d2.data
  String.mk (trimOneDash sq)

/-- The `migrateCategoryTranslations` loop: language detected from the
name, translations for absent collections skipped, conflicting inserts
silently ignored (`ON CONFLICT DO NOTHING RETURNING id` tracks only actual
inserts). -/
def migrateCategoryTranslations (env : MigrationEnv) (w : World)
    (batchId : Nat) : World :=
  match env.categoryFile with
  | none => w
  | some cats =>
    cats.foldl (fun w pr =>
      let name := pr.1
      let data := pr.2
      let langCode := detectLanguage name
      let oldId := toString data.id ++ "_" ++ langCode ++ "_" ++ name
      if isAlreadyMigrated w "collection_translations" oldId then w
      else if !(w.collections.any (fun c => c.id == data.id)) then w
      else if w.collectionTranslations.any (fun r =>
          r.collectionId == data.id && r.languagesCode == langCode) then w
      else
        let rid := w.nextCollTransId
        let w1 := { w with
          collectionTranslations := w.collectionTranslations ++
            [{ id := rid, collectionId := data.id, languagesCode := langCode,
               name := name, slug := slugify name }],
          nextCollTransId := rid + 1 }
        trackMigration w1 batchId "collection_translations" oldId
          (some (toString rid)) "success" (some name) none) w

/-- Association-list `Map.set` for the post-category mapping. -/
def assocSetInt (m : List (String × Int)) (k : String) (v : Int) :
    List (String × Int) :=
  if m.any (fun p => p.1 = k) then
    m.map (fun p => if p.1 = k then (k, v) else p)
  else m ++ [(k, v)]

/-- The `loadPostCategoryMapping` reader. -/
def loadPostCategoryMapping (env : MigrationEnv) : List (String × Int) :=
  match env.postCategoryFile with
  | none => []
  | some items => items.foldl (fun m pr => assocSetInt m pr.1 pr.2) []

/-- The `migrateWpPosts` driver: stream the CSV with the
`post`/`publish` filter and the migration limit, then migrate each record
in order (chunking is a pacing concern with no effect on the state). -/
def migrateWpPosts (env : MigrationEnv) (w : World) (batchId : Nat)
    (migrationLimit : Nat) : World :=
  match env.wpPostsFile with
  | none => w
  | some lines =>
    let posts := readWpPostsCSV
      { postType := "post", postStatus := some "publish",
        limit := migrationLimit } lines
    if posts.isEmpty then w
    else
      let mapping := loadPostCategoryMapping env
      posts.foldl (fun w rec =>
        (migrateSingleWpPost env.oracle env.config w batchId (toWpPost rec)
          mapping).1) w

/-- The `migratePostTags` loop, including the translations-shape guard on
the first element and the falsy-id skip. -/
def migratePostTags (env : MigrationEnv) (w : World) (batchId : Nat)
    (limit : Nat) : World :=
  match env.postTagsFile with
  | none => w
  | some pts0 =>
    if (match pts0 with
        | pt0 :: _ => truthyInt pt0.languages_id
        | [] => false) then w
    else
      let pts := if 0 < limit then pts0.take limit else pts0
      pts.foldl (fun w pt =>
        if !(truthyInt pt.post_id && truthyInt pt.tag_id) then w
        else
          match pt.post_id, pt.tag_id with
          | some pid, some tid =>
            let oldId := toString pid ++ "_" ++ toString tid
            if isAlreadyMigrated w "post_tag" oldId then w
            else if w.postTags.any (fun r =>
                r.postId == pid && r.tagId == tid) then w
            else
              let rid := w.nextPostTagId
              let w1 := { w with
                postTags := w.postTags ++
                  [{ id := rid, postId := pid, tagId := tid }],
                nextPostTagId := rid + 1 }
              trackMigration w1 batchId "post_tag" oldId
                (some (toString rid)) "success" (some oldId) none
          | _, _ => w) w

/-- Outcome of a migration run: `fatalExit` models `process.exit(1)` on
missing token or folder (before any batch is created), `error` the re-raise
after the batch is marked failed. -/
inductive RunResult where
  | fatalExit
  | ok
  | error (msg : String)
deriving Repr, DecidableEq

/-- The `runMigration` orchestrator.  The batch name carries a date in the
source; it is modelled as a constant label.  The status display after
completion is read-only and omitted. -/
def runMigration (env : MigrationEnv) (w : World) (migrationLimit : Nat) :
    World × RunResult :=
  if !(truthyStr env.config.directusToken) then (w, RunResult.fatalExit)
  else if !(truthyStr env.config.folderId) then (w, RunResult.fatalExit)
  else
    let pr := createBatch w "migration_run"
      (if migrationLimit = 0 then "Full WordPress to Directus migration"
       else "Test migration")
    let batchId := pr.2
    let w1 := migrateTags env pr.1 batchId 0
    let w2 := migrateTagTranslations env w1 batchId 0
    match migrateCategories env w2 batchId 0 with
    | Except.error e =>
      (completeBatch w2 batchId "failed" (some e), RunResult.error e)
    | Except.ok w3 =>
      let w4 := migrateCategoryTranslations env w3 batchId
      let w5 := migrateWpPosts env w4 batchId migrationLimit
      let w6 := migratePostTags env w5 batchId migrationLimit
      (completeBatch w6 batchId "completed" none, RunResult.ok)

/-! ### Batch rollback (`rollbackBatch`) -/

/-- Outcome of a rollback invocation (deleted/failed counts are log-only in
the source and omitted). -/
inductive RollbackOutcome where
  | noBatch
  | notFound
  | notCompleted
  | done
deriving Repr, DecidableEq

/-- New ids of the batch's success rows for one table, cast to integers as
`parseInt` does before `id = ANY($1::int[])`; rows whose id does not parse
are dropped (their deletes would fail and be collected).  The `ORDER BY id
DESC` of the source affects only iteration order, not the deleted set. -/
def rollbackIdsFor (rows : List TrackRow) (t : String) : List Int :=
  ((rows.filter (fun r => r.tableName == t)).filterMap
    (fun r => r.newId)).filterMap strToIntM

/-- Integer-cast membership for tables with serial (`Nat`) ids. -/
def natIdHit (ids : List Int) (n : Nat) : Bool := ids.contains (Int.ofNat n)

/-- The `rollbackBatch` procedure: resolve the target batch (argument or
most recent completed), require status `completed`, delete the target rows
of every tracked table of the batch in FK order — `directus_files` records
are skipped — and mark the batch and all its tracking rows
`rolled_back`. -/
def rollbackBatch (w : World) (batchIdArg : Option Nat) :
    World × RollbackOutcome :=
  let targetOpt : Option Nat := match batchIdArg with
    | some bid => some bid
    | none =>
      (w.batches.filter (fun b => b.status == "completed")).foldl
        (fun (acc : Option Nat) (b : BatchRow) =>
          match acc with
          | none => some b.id
          | some m => if m < b.id then some b.id else some m)
        (none : Option Nat)
  match targetOpt with
  | none => (w, RollbackOutcome.noBatch)
  | some target =>
    match w.batches.find? (fun b => b.id == target) with
    | none => (w, RollbackOutcome.notFound)
    | some batch =>
      if !(batch.status == "completed") then (w, RollbackOutcome.notCompleted)
      else
        let rows := w.tracking.filter (fun r =>
          r.batchId == target && r.status == "success")
        let w1 := { w with
          postTranslations := w.postTranslations.filter (fun p =>
            !(natIdHit (rollbackIdsFor rows "post_translations") p.id)),
          postTags := w.postTags.filter (fun p =>
            !(natIdHit (rollbackIdsFor rows "post_tag") p.id)),
          posts := w.posts.filter (fun p =>
            !((rollbackIdsFor rows "post").contains p.id)),
          tagTranslations := w.tagTranslations.filter (fun p =>
            !(natIdHit (rollbackIdsFor rows "tag_translations") p.id)),
          tags := w.tags.filter (fun t =>
            !((rollbackIdsFor rows "tag").contains t)),
          collectionTranslations := w.collectionTranslations.filter (fun p =>
            !(natIdHit (rollbackIdsFor rows "collection_translations") p.id)),
          collections := w.collections.filter (fun c =>
            !((rollbackIdsFor rows "collection").contains c.id)) }
        let w2 := { w1 with
          batches := w1.batches.map (fun b =>
            if b.id == target then
              { b with status := "rolled_back", completedAt := some w.time }
            else b),
          tracking := w1.tracking.map (fun r =>
            if r.batchId == target then { r with status := "rolled_back" }
            else r),
          time := w.time + 1 }
        (w2, RollbackOutcome.done)

/-! ### Sample data for concrete instantiations -/

/-- A fully-populated configuration. -/
def sampleConfig : Config :=
  { wpBaseUrl := "https://www.btaskee.com", directusToken := some "tok",
    folderId := some "fold", authorId := some "auth",
    authorName := some "Ann", postTemplateId := some 46,
    collectionTemplateId := some 57 }

/-- A small published post with one media reference. -/
def samplePost : WpPost :=
  { ID := "12", post_title := "Title", post_name := "slug-x",
    post_content := "<p><img src=\"/wp-content/uploads/a.png\"></p><p>Hi</p>",
    post_excerpt := "exc", post_status := "publish",
    post_date := "2020-01-01", post_modified := "" }

/-- A tracking row marking post 12 as already migrated. -/
def sampleTrackRow : TrackRow :=
  { id := 1, batchId := 1, tableName := "post", oldId := "12",
    newId := some "12", status := "success", errorMessage := none,
    sourceData := some "12", createdAt := 0, updatedAt := 0 }

/-- A world in which post 12 has a prior success record. -/
def sampleTrackedWorld : World :=
  { emptyWorld with tracking := [sampleTrackRow] }

/-- A pending tracking row with a snapshot, for the upsert-conflict
instantiation. -/
def samplePendingRow : TrackRow :=
  { id := 5, batchId := 2, tableName := "post", oldId := "9",
    newId := some "9", status := "pending", errorMessage := none,
    sourceData := some "SNAP", createdAt := 3, updatedAt := 3 }

/-- A world holding the pending row, with the clock at 7. -/
def samplePendingWorld : World :=
  { emptyWorld with tracking := [samplePendingRow], time := 7 }

/-- An environment whose post-template id is missing but whose token,
folder and data files are present. -/
def envMissingTemplate : MigrationEnv :=
  { config := { sampleConfig with postTemplateId := none },
    tagsFile := some [{ tag_id := 7, name := "tag7", slug := "t7" }],
    categoryFile := some [("Cat", { id := 1, priority := 2 })],
    postCategoryFile := none, postTagsFile := none, wpPostsFile := none,
    oracle := fun _ => Except.ok "u" }

/-- An environment whose author id is missing (all other required flags
present, no data files). -/
def envMissingAuthor : MigrationEnv :=
  { config := { sampleConfig with authorId := none },
    tagsFile := none, categoryFile := none, postCategoryFile := none,
    postTagsFile := none, wpPostsFile := none,
    oracle := fun _ => Except.ok "u" }

/-- The completed batch row used for the rollback instantiation. -/
def rbBatch : BatchRow :=
  { id := 1, batchName := "b", description := "", status := "completed",
    errorMessage := none, completedAt := none }

/-- A successful tracking row of batch 1 for the given table and id. -/
def rbRow (i : Nat) (t oid : String) : TrackRow :=
  { id := i, batchId := 1, tableName := t, oldId := oid,
    newId := some oid, status := "success", errorMessage := none,
    sourceData := none, createdAt := i, updatedAt := i }

/-- Tracking rows: three post successes and one tag success. -/
def rbTrack1 : TrackRow := rbRow 1 "post" "11"
def rbTrack2 : TrackRow := rbRow 2 "post" "12"
def rbTrack3 : TrackRow := rbRow 3 "post" "13"
def rbTrack4 : TrackRow := rbRow 4 "tag" "5"

/-- A bare published post row with the given id. -/
def rbPost (n : Int) : PostRow :=
  { id := n, status := "published", thumbnail := none,
    publishDate := none, dateCreated := none, dateUpdated := none,
    collection := none, author := none, authorName := none,
    userCreated := none }

/-- A completed batch holding three successful post records and one
successful tag record, with the corresponding target rows present (plus one
unrelated post 99 and tag 6). -/
def sampleRollbackWorld : World :=
  { emptyWorld with
    batches := [rbBatch],
    tracking := [rbTrack1, rbTrack2, rbTrack3, rbTrack4],
    posts := [rbPost 11, rbPost 12, rbPost 13, rbPost 99],
    tags := [5, 6] }

/-- The world components the tag-migration steps must leave untouched,
bundled for the frame lemmas. -/
def targetFrame (w : World) :
    List CollectionRow × List CollectionTranslationRow × List PostRow ×
      List PostTranslationRow × List PostTagRow × List BatchRow :=
  (w.collections, w.collectionTranslations, w.posts, w.postTranslations,
    w.postTags, w.batches)

/-! ## Theorems -/

/-- Folding `objSet` over pairs with pairwise-distinct keys, all fresh for the
accumulator, appends the pairs. -/
theorem foldl_objSet_fresh (ps : List (String × String)) :
    ∀ acc : Record, (ps.map Prod.fst).Nodup →
      (∀ p ∈ ps, acc.any (fun q => q.1 = p.1) = false) →
      ps.foldl (fun r hv => objSet r hv.1 hv.2) acc = acc ++ ps := by
  induction ps with
  | nil => intro acc _ _; simp
  | cons p ps ih =>
    intro acc hnd hfresh
    have hfp : acc.any (fun q => q.1 = p.1) = false := hfresh p (by simp)
    have hstep : objSet acc p.1 p.2 = acc ++ [p] := by
      simp [objSet, hfp]
    have hnd2 : (p.1 :: ps.map Prod.fst).Nodup := by simpa using hnd
    have hcons := List.nodup_cons.mp hnd2
    have hfresh' : ∀ q ∈ ps, (acc ++ [p]).any (fun r => r.1 = q.1) = false := by
      intro q hq
      have h1 : acc.any (fun r => r.1 = q.1) = false := hfresh q (by simp [hq])
      have h2 : ¬ (p.1 = q.1) := by
        intro he
        exact hcons.1 (by simpa [he] using List.mem_map_of_mem Prod.fst hq)
      simp [List.any_append, h1, h2]
    calc (p :: ps).foldl (fun r hv => objSet r hv.1 hv.2) acc
        = ps.foldl (fun r hv => objSet r hv.1 hv.2) (acc ++ [p]) := by
          simp [List.foldl_cons, hstep]
      _ = (acc ++ [p]) ++ ps := ih (acc ++ [p]) hcons.2 hfresh'
      _ = acc ++ (p :: ps) := by simp

/-- The first projections of a zip form a sublist of the left list. -/
theorem map_fst_zip_sub (l1 l2 : List String) :
    ((l1.zip l2).map Prod.fst).Sublist l1 := by
  induction l1 generalizing l2 with
  | nil => simp
  | cons a l1 ih =>
    cases l2 with
    | nil => simp
    | cons b l2 => simpa using List.Sublist.cons₂ a (ih l2)

/-- With pairwise-distinct headers, the record object built by the reader is
just the zip of headers and values. -/
theorem mkRecord_eq_zip (hdrs values : List String) (hnd : hdrs.Nodup) :
    mkRecord hdrs values = hdrs.zip values := by
  have hkeys : ((hdrs.zip values).map Prod.fst).Nodup :=
    List.Nodup.sublist (map_fst_zip_sub hdrs values) hnd
  have := foldl_objSet_fresh (hdrs.zip values) [] hkeys (by intro p _; simp)
  simpa [mkRecord] using this

/-- Looking a header up in the zipped record returns the value in the same
position, provided headers are pairwise distinct. -/
theorem getField_zip (hdrs values : List String) (i : Nat) (h1 : i < hdrs.length)
    (h2 : i < values.length) (hnd : hdrs.Nodup) :
    getField (hdrs.zip values) hdrs[i] = some values[i] := by
  induction hdrs generalizing values i with
  | nil => simp at h1
  | cons h hs ih =>
    cases values with
    | nil => simp at h2
    | cons v vs =>
      cases i with
      | zero => simp [getField, List.find?]
      | succ n =>
        have h1' : n < hs.length := by simpa using h1
        have h2' : n < vs.length := by simpa using h2
        have hmem : h ∉ hs := (List.nodup_cons.mp hnd).1
        have hne : ¬ (h = hs[n]) := by
          intro he
          have hin : hs[n] ∈ hs := by
            exact List.get_mem hs n h1'
          rw [← he] at hin
          exact hmem hin
        have hrec := ih vs n h1' h2' (List.nodup_cons.mp hnd).2
        simpa [getField, List.zip_cons_cons, List.find?, hne] using hrec

/-- Concatenated text distributes over list append. -/
theorem textConcat_append (l1 l2 : List TNode) :
    textConcat (l1 ++ l2) = textConcat l1 ++ textConcat l2 := by
  induction l1 with
  | nil => simp [textConcat]
  | cons n l ih => simp [textConcat, ih]

/-- A kept run is non-empty text; one cleanup step preserves non-emptiness,
the adjacent-marks-differ chain, and the concatenated text. -/
theorem cleanStep_facts (acc : List TNode) (node : TNode)
    (hg : ∀ n ∈ acc, ∃ t m, n = TNode.text t m ∧ ¬ t = "")
    (hc : List.Chain' marksDiffer acc) :
    (∀ n ∈ cleanStep acc node, ∃ t m, n = TNode.text t m ∧ ¬ t = "") ∧
    List.Chain' marksDiffer (cleanStep acc node) ∧
    textConcat (cleanStep acc node) = textConcat acc ++ nodeTextOf node := by
  cases node
  case text t m =>
    by_cases ht : t = ""
    · subst ht
      have hred : cleanStep acc (TNode.text "" m) = acc := by simp [cleanStep]
      rw [hred]
      exact ⟨hg, hc, by simp [nodeTextOf]⟩
    · cases hlast : acc.getLast? with
      | none =>
        have hacc : acc = [] := by
          cases acc with
          | nil => rfl
          | cons a l => simp [List.getLast?_concat] at hlast
        subst hacc
        have hred : cleanStep [] (TNode.text t m) = [TNode.text t m] := by
          simp [cleanStep, ht]
        rw [hred]
        refine ⟨?_, by simp, by simp [textConcat, nodeTextOf]⟩
        intro n hn
        simp at hn
        exact ⟨t, m, hn, ht⟩
      | some last =>
        have hdecomp0 : acc.dropLast ++ [last] = acc :=
          List.dropLast_append_getLast? last (by rw [hlast]; rfl)
        have hmem : last ∈ acc := by
          rw [← hdecomp0]; simp
        obtain ⟨lt, lm, hlasteq, hltne⟩ := hg last hmem
        subst hlasteq
        have hdecomp : acc = acc.dropLast ++ [TNode.text lt lm] := hdecomp0.symm
        by_cases hm : lm = m
        · subst hm
          have hred : cleanStep acc (TNode.text t lm)
              = acc.dropLast ++ [TNode.text (lt ++ t) lm] := by
            simp [cleanStep, ht, hlast]
          have hmerge_ne : ¬ (lt ++ t = "") := by
            intro he
            apply ht
            have hdata := congrArg String.data he
            simp [String.data_append] at hdata
            cases t with
            | mk d =>
              have hd : d = [] := by simpa [String.data] using hdata.2
              subst hd
              rfl
          refine ⟨?_, ?_, ?_⟩
          · rw [hred]
            intro n hn
            rcases List.mem_append.mp hn with h | h
            · exact hg n ((List.dropLast_sublist acc).subset h)
            · simp at h
              exact ⟨lt ++ t, lm, h, hmerge_ne⟩
          · rw [hred]
            have hcd : List.Chain' marksDiffer (acc.dropLast ++ [TNode.text lt lm]) := by
              rw [← hdecomp]; exact hc
            rw [List.chain'_append] at hcd ⊢
            refine ⟨hcd.1, by simp, ?_⟩
            intro x hx y hy
            simp at hy
            subst hy
            have := hcd.2.2 x hx (TNode.text lt lm) (by simp)
            simpa [marksDiffer, nodeMarksOf] using this
          · rw [hred, textConcat_append]
            conv_rhs => rw [hdecomp]
            rw [textConcat_append]
            simp [textConcat, nodeTextOf, String.data_append, List.append_assoc]
        · have hred : cleanStep acc (TNode.text t m) = acc ++ [TNode.text t m] := by
            simp [cleanStep, ht, hlast, hm]
          refine ⟨?_, ?_, ?_⟩
          · rw [hred]
            intro n hn
            rcases List.mem_append.mp hn with h | h
            · exact hg n h
            · simp at h
              exact ⟨t, m, h, ht⟩
          · rw [hred, List.chain'_append]
            refine ⟨hc, by simp, ?_⟩
            intro x hx y hy
            simp at hy
            subst hy
            rw [hlast] at hx
            simp at hx
            subst hx
            simpa [marksDiffer, nodeMarksOf] using hm
          · rw [hred, textConcat_append]
            simp [textConcat, nodeTextOf]
  all_goals exact ⟨by simpa [cleanStep] using hg, by simpa [cleanStep] using hc,
    by simp [cleanStep, nodeTextOf]⟩

/-- The cleanup fold preserves the three invariants from any good
accumulator. -/
theorem cleanup_fold (l : List TNode) : ∀ acc : List TNode,
    (∀ n ∈ acc, ∃ t m, n = TNode.text t m ∧ ¬ t = "") →
    List.Chain' marksDiffer acc →
    (∀ n ∈ l.foldl cleanStep acc, ∃ t m, n = TNode.text t m ∧ ¬ t = "") ∧
    List.Chain' marksDiffer (l.foldl cleanStep acc) ∧
    textConcat (l.foldl cleanStep acc) = textConcat acc ++ textConcat l := by
  induction l with
  | nil =>
    intro acc hg hc
    exact ⟨by simpa using hg, by simpa using hc, by simp [textConcat]⟩
  | cons node l ih =>
    intro acc hg hc
    obtain ⟨hg', hc', ht'⟩ := cleanStep_facts acc node hg hc
    obtain ⟨rg, rc, rt⟩ := ih (cleanStep acc node) hg' hc'
    refine ⟨by simpa using rg, by simpa using rc, ?_⟩
    simp only [List.foldl_cons]
    rw [rt, ht']
    simp [textConcat, List.append_assoc]

/-- C8.  The converter turns `<p><strong>Hi</strong> there</p>` into one
paragraph holding exactly the two runs `Hi` (bold) and ` there` (no marks);
and in general the inline parser emits only non-empty text runs, no two
adjacent runs share a mark list (identical-mark neighbours are merged), and
the merged output carries exactly the concatenated text of the raw walk. -/
theorem c8_convert_inline_merge :
    convertHtmlToTipTapJson "<p><strong>Hi</strong> there</p>"
      = some (TNode.doc [TNode.paragraph (some "left")
          [TNode.text "Hi" [Mark.bold], TNode.text " there" []]]) ∧
    (∀ html : String,
      (∀ n ∈ parseInlineContent html, ∃ t m, n = TNode.text t m ∧ ¬ t = "") ∧
      List.Chain' marksDiffer (parseInlineContent html) ∧
      textConcat (parseInlineContent html)
        = textConcat (parseWithMarks ((entityDecode html).data.length + 1)
            (entityDecode html).data [])) := by
  constructor
  · rfl
  · intro html
    by_cases h : html = ""
    · subst h
      exact ⟨by simp [parseInlineContent], by simp [parseInlineContent], by rfl⟩
    · have hun : parseInlineContent html
          = (parseWithMarks ((entityDecode html).data.length + 1)
              (entityDecode html).data []).foldl cleanStep [] := by
        rw [parseInlineContent, if_neg h]
        rfl
      rw [hun]
      have := cleanup_fold
        (parseWithMarks ((entityDecode html).data.length + 1)
          (entityDecode html).data []) [] (by simp) (by simp)
      exact ⟨this.1, this.2.1, by simpa [textConcat] using this.2.2⟩

/-- The rewrite function fixes the empty src. -/
theorem rewriteImageSrc_empty (baseUrl : String) (m : List (String × String)) :
    rewriteImageSrc baseUrl m "" = "" := rfl

mutual

/-- The recursive `processNode` is exactly the image-src map under
`rewriteImageSrc`. -/
theorem processNode_eq_mapImageSrc (b : String) (m : List (String × String)) :
    ∀ n : TNode, processNodeUrls b m n = mapImageSrc (rewriteImageSrc b m) n
  | TNode.text _ _ => rfl
  | TNode.image src alt cap w h => by
    by_cases hs : src = ""
    · subst hs
      simp [processNodeUrls, mapImageSrc, rewriteImageSrc_empty]
    · simp [processNodeUrls, mapImageSrc, hs]
  | TNode.paragraph a c => by
    simp only [processNodeUrls, mapImageSrc, processNodeList_eq_mapImageSrc b m c]
  | TNode.heading lv c => by
    simp only [processNodeUrls, mapImageSrc, processNodeList_eq_mapImageSrc b m c]
  | TNode.bulletList c => by
    simp only [processNodeUrls, mapImageSrc, processNodeList_eq_mapImageSrc b m c]
  | TNode.orderedList c => by
    simp only [processNodeUrls, mapImageSrc, processNodeList_eq_mapImageSrc b m c]
  | TNode.listItem c => by
    simp only [processNodeUrls, mapImageSrc, processNodeList_eq_mapImageSrc b m c]
  | TNode.blockquote c => by
    simp only [processNodeUrls, mapImageSrc, processNodeList_eq_mapImageSrc b m c]
  | TNode.codeBlock c => by
    simp only [processNodeUrls, mapImageSrc, processNodeList_eq_mapImageSrc b m c]
  | TNode.horizontalRule => rfl
  | TNode.table c => by
    simp only [processNodeUrls, mapImageSrc, processNodeList_eq_mapImageSrc b m c]
  | TNode.tableRow c => by
    simp only [processNodeUrls, mapImageSrc, processNodeList_eq_mapImageSrc b m c]
  | TNode.tableHeader c => by
    simp only [processNodeUrls, mapImageSrc, processNodeList_eq_mapImageSrc b m c]
  | TNode.tableCell c => by
    simp only [processNodeUrls, mapImageSrc, processNodeList_eq_mapImageSrc b m c]
  | TNode.doc c => by
    simp only [processNodeUrls, mapImageSrc, processNodeList_eq_mapImageSrc b m c]

/-- List version of `processNode_eq_mapImageSrc`. -/
theorem processNodeList_eq_mapImageSrc (b : String) (m : List (String × String)) :
    ∀ l : List TNode,
      processNodeListUrls b m l = mapImageSrcList (rewriteImageSrc b m) l
  | [] => rfl
  | n :: l => by
    simp only [processNodeListUrls, mapImageSrcList,
      processNode_eq_mapImageSrc b m n, processNodeList_eq_mapImageSrc b m l]

end

/-- C9 counterexample: an image whose src exactly equals a fully-qualified
key of the mapping, but contains no `/wp-content/uploads/` segment, is left
verbatim — the claim demands it become `/assets/u1`. -/
theorem c9_rewrite_counterexample :
    mapGet [("https://example.com/pics/a.jpg", "u1")] "https://example.com/pics/a.jpg"
        = some "u1" ∧
    replaceUrlsInTipTapJson "https://example.com"
        [("https://example.com/pics/a.jpg", "u1")]
        (TNode.doc [TNode.image "https://example.com/pics/a.jpg" "" none none none])
      = TNode.doc [TNode.image "https://example.com/pics/a.jpg" "" none none none] ∧
    ¬ ("https://example.com/pics/a.jpg" = "/assets/" ++ "u1") := by
  refine ⟨rfl, rfl, by decide⟩

/-- C9 (amended).  On a document root, the rewriter maps every image node
src — at any depth — through the fixed function `rewriteImageSrc`: a src
starting with `/wp-content/uploads/` is looked up under the base URL, a src
merely containing that segment is looked up verbatim, a hit becomes
`/assets/{id}`, and every other src (and every non-image field of every
node) is unchanged; the spec example with `uuid-1` holds. -/
theorem c9_rewrite_amended (baseUrl : String) (m : List (String × String))
    (cs : List TNode) :
    replaceUrlsInTipTapJson baseUrl m (TNode.doc cs)
        = TNode.doc (mapImageSrcList (rewriteImageSrc baseUrl m) cs) ∧
    (∀ n : TNode, processNodeUrls baseUrl m n
        = mapImageSrc (rewriteImageSrc baseUrl m) n) ∧
    replaceUrlsInTipTapJson "https://example.com"
        [("https://example.com/wp-content/uploads/a.jpg", "uuid-1")]
        (TNode.doc [TNode.image "https://example.com/wp-content/uploads/a.jpg"
          "" none none none])
      = TNode.doc [TNode.image "/assets/uuid-1" "" none none none] := by
  refine ⟨?_, processNode_eq_mapImageSrc baseUrl m, rfl⟩
  simp only [replaceUrlsInTipTapJson, processNodeList_eq_mapImageSrc baseUrl m cs]

/-- Looking up a key in the updated-in-place map returns the new value. -/
theorem mapGet_map_upd (m : List (String × String)) (k v : String) :
    m.any (fun p => p.1 = k) = true →
    mapGet (m.map (fun p => if p.1 = k then (k, v) else p)) k = some v := by
  induction m with
  | nil => intro h; simp at h
  | cons p ps ih =>
    intro h
    by_cases hp : p.1 = k
    · simp [mapGet, List.find?, hp]
    · have hps : ps.any (fun q => q.1 = k) = true := by
        rcases List.any_eq_true.mp h with ⟨q, hq, hqk⟩
        rcases List.mem_cons.mp hq with rfl | hq2
        · simp at hqk
          exact absurd hqk hp
        · exact List.any_eq_true.mpr ⟨q, hq2, by simpa using hqk⟩
      have := ih hps
      simpa [mapGet, List.find?, hp] using this

/-- Setting a key makes it readable. -/
theorem mapGet_mapSet (m : List (String × String)) (k v : String) :
    mapGet (mapSet m k v) k = some v := by
  by_cases h : m.any (fun p => p.1 = k)
  · rw [mapSet, if_pos h]
    exact mapGet_map_upd m k v h
  · rw [mapSet, if_neg h]
    have hnone : m.find? (fun p => decide (p.1 = k)) = none := by
      rw [List.find?_eq_none]
      intro x hx hk
      exact absurd (List.any_eq_true.mpr ⟨x, hx, hk⟩) h
    rw [mapGet, List.find?_append, hnone]
    simp [List.find?]

/-- The upsert changes no component of the world besides the tracking
table, its id counter and the clock. -/
theorem trackMigration_frame (w : World) (b : Nat) (t o : String)
    (nid : Option String) (st : String) (sd em : Option String) :
    (trackMigration w b t o nid st sd em).importLog = w.importLog ∧
    (trackMigration w b t o nid st sd em).posts = w.posts ∧
    (trackMigration w b t o nid st sd em).postTranslations = w.postTranslations ∧
    (trackMigration w b t o nid st sd em).tags = w.tags ∧
    (trackMigration w b t o nid st sd em).tagTranslations = w.tagTranslations ∧
    (trackMigration w b t o nid st sd em).collections = w.collections ∧
    (trackMigration w b t o nid st sd em).collectionTranslations
      = w.collectionTranslations ∧
    (trackMigration w b t o nid st sd em).postTags = w.postTags ∧
    (trackMigration w b t o nid st sd em).batches = w.batches ∧
    (trackMigration w b t o nid st sd em).urlCache = w.urlCache := by
  unfold trackMigration
  split <;> exact ⟨rfl, rfl, rfl, rfl, rfl, rfl, rfl, rfl, rfl, rfl⟩

/-- Import-log projection of the upsert. -/
theorem trackMigration_importLog (w : World) (b : Nat) (t o : String)
    (nid : Option String) (st : String) (sd em : Option String) :
    (trackMigration w b t o nid st sd em).importLog = w.importLog :=
  (trackMigration_frame w b t o nid st sd em).1

/-- Every upsert leaves (or creates) a row carrying the given key and the
given new id, status and error message. -/
theorem trackMigration_mem (w : World) (b : Nat) (t o : String)
    (nid : Option String) (st : String) (sd em : Option String) :
    ∃ r ∈ (trackMigration w b t o nid st sd em).tracking,
      r.tableName = t ∧ r.oldId = o ∧ r.batchId = b ∧ r.newId = nid ∧
      r.status = st ∧ r.errorMessage = em := by
  unfold trackMigration
  by_cases h : w.tracking.any (trackKeyIs t o b)
  · simp only [h, if_true]
    obtain ⟨r, hr, hkey⟩ := List.any_eq_true.mp h
    have hk := hkey
    simp only [trackKeyIs, Bool.and_eq_true, beq_iff_eq] at hk
    refine ⟨{ r with
      newId := nid, status := st, errorMessage := em, updatedAt := w.time },
      ?_, by simp [hk.1.1, hk.1.2, hk.2]⟩
    have := List.mem_map_of_mem (fun r =>
      if trackKeyIs t o b r then
        { r with
          newId := nid, status := st, errorMessage := em,
          updatedAt := w.time }
      else r) hr
    simpa [hkey] using this
  · simp only [h, if_false]
    refine ⟨{ id := w.nextTrackId, batchId := b, tableName := t,
              oldId := o, newId := nid, status := st, errorMessage := em,
              sourceData := sd, createdAt := w.time, updatedAt := w.time },
      by simp, rfl, rfl, rfl, rfl, rfl, rfl⟩

/-- The upsert does not move the frame components. -/
theorem trackMigration_targetFrame (w : World) (b : Nat) (t o : String)
    (nid : Option String) (st : String) (sd em : Option String) :
    targetFrame (trackMigration w b t o nid st sd em) = targetFrame w := by
  have h := trackMigration_frame w b t o nid st sd em
  simp [targetFrame, h.2.1, h.2.2.1, h.2.2.2.2.2.1, h.2.2.2.2.2.2.1,
    h.2.2.2.2.2.2.2.1, h.2.2.2.2.2.2.2.2.1]

/-- Componentwise reading of a frame equality. -/
theorem targetFrame_components {w1 w2 : World}
    (h : targetFrame w1 = targetFrame w2) :
    w1.collections = w2.collections ∧
    w1.collectionTranslations = w2.collectionTranslations ∧
    w1.posts = w2.posts ∧ w1.postTranslations = w2.postTranslations ∧
    w1.postTags = w2.postTags ∧ w1.batches = w2.batches :=
  ⟨congrArg (fun t => t.1) h, congrArg (fun t => t.2.1) h,
    congrArg (fun t => t.2.2.1) h, congrArg (fun t => t.2.2.2.1) h,
    congrArg (fun t => t.2.2.2.2.1) h, congrArg (fun t => t.2.2.2.2.2) h⟩

/-- One tag step preserves the frame components. -/
theorem migrateTagStep_targetFrame (b : Nat) (w : World) (tag : TagJson) :
    targetFrame (migrateTagStep b w tag) = targetFrame w := by
  unfold migrateTagStep
  by_cases h : isAlreadyMigrated w "tag" (toString tag.tag_id)
  · rw [if_pos h]
  · rw [if_neg h, trackMigration_targetFrame]
    split <;> rfl

/-- One tag-translation step preserves the frame components. -/
theorem migrateTagTransStep_targetFrame (b : Nat) (w : World)
    (tag : TagJson) :
    targetFrame (migrateTagTransStep b w tag) = targetFrame w := by
  unfold migrateTagTransStep
  by_cases h : isAlreadyMigrated w "tag_translations"
      (toString tag.tag_id ++ "_vi-VN")
  · rw [if_pos h]
  · rw [if_neg h]
    by_cases h2 : w.tagTranslations.any (fun r =>
        r.tagId == tag.tag_id && r.languagesCode == "vi-VN")
    · rw [if_pos h2]
    · rw [if_neg h2, trackMigration_targetFrame]
      rfl

/-- A fold of frame-preserving steps preserves the frame. -/
theorem foldl_targetFrame {α : Type} (f : World → α → World)
    (hf : ∀ w a, targetFrame (f w a) = targetFrame w) (l : List α) :
    ∀ w : World, targetFrame (l.foldl f w) = targetFrame w := by
  induction l with
  | nil => intro w; rfl
  | cons a rest ih =>
    intro w
    rw [List.foldl_cons, ih (f w a), hf w a]

/-- Migrating tags touches only the tag table, the tracking store and the
clock: the frame components are preserved. -/
theorem migrateTags_targetFrame (env : MigrationEnv) (b l : Nat)
    (w : World) : targetFrame (migrateTags env w b l) = targetFrame w := by
  unfold migrateTags
  cases env.tagsFile with
  | none => rfl
  | some tags0 =>
    exact foldl_targetFrame (migrateTagStep b)
      (fun w a => migrateTagStep_targetFrame b w a) _ w

/-- Migrating tag translations preserves the frame components as well. -/
theorem migrateTagTranslations_targetFrame (env : MigrationEnv) (b l : Nat)
    (w : World) :
    targetFrame (migrateTagTranslations env w b l) = targetFrame w := by
  unfold migrateTagTranslations
  cases env.tagsFile with
  | none => rfl
  | some tags0 =>
    exact foldl_targetFrame (migrateTagTransStep b)
      (fun w a => migrateTagTransStep_targetFrame b w a) _ w

/-- C5 counterexample: with the post-template id absent (token and folder
present, tag and category data on disk), the run writes the tag row, two
tracking records and a batch before aborting — contradicting the claim
that no row or tracking record is created. -/
theorem c5_config_abort_counterexample :
    (runMigration envMissingTemplate emptyWorld 0).1.tags = [7] ∧
    (runMigration envMissingTemplate emptyWorld 0).1.tracking.map
        (fun r => (r.tableName, r.status))
      = [("tag", "success"), ("tag_translations", "success")] ∧
    (runMigration envMissingTemplate emptyWorld 0).2
      = RunResult.error templateErrorMsg := by
  refine ⟨rfl, rfl, rfl⟩

/-- C5 (amended).  A missing (or empty) Directus token or media-folder id
exits fatally before any work: the world is returned unchanged, with no
batch created.  A missing post- or collection-template id (token and folder
present, category data present) aborts at the categories step: the run
returns the template error, collections, posts, translations and post-tag
links are untouched, and the freshly created batch is marked `failed` —
but tags and tag translations have already been migrated by then.  A
missing author id is never validated: with all other flags present the run
completes normally. -/
theorem c5_config_abort_amended :
    (∀ (env : MigrationEnv) (w : World) (limit : Nat),
      truthyStr env.config.directusToken = false ∨
        truthyStr env.config.folderId = false →
      runMigration env w limit = (w, RunResult.fatalExit)) ∧
    (∀ (env : MigrationEnv) (w : World) (limit : Nat)
        (cats : List (String × CatData)),
      truthyStr env.config.directusToken = true →
      truthyStr env.config.folderId = true →
      env.categoryFile = some cats →
      (truthyInt env.config.postTemplateId &&
        truthyInt env.config.collectionTemplateId) = false →
      (runMigration env w limit).2 = RunResult.error templateErrorMsg ∧
      (runMigration env w limit).1.collections = w.collections ∧
      (runMigration env w limit).1.posts = w.posts ∧
      (runMigration env w limit).1.postTranslations = w.postTranslations ∧
      (runMigration env w limit).1.postTags = w.postTags ∧
      ∃ b ∈ (runMigration env w limit).1.batches,
        b.id = w.nextBatchId ∧ b.status = "failed" ∧
        b.errorMessage = some templateErrorMsg) ∧
    ((runMigration envMissingAuthor emptyWorld 0).2 = RunResult.ok ∧
      (runMigration envMissingAuthor emptyWorld 0).1.batches.map
        (fun b => b.status) = ["completed"]) := by
  refine ⟨?_, ?_, rfl, rfl⟩
  · intro env w limit h
    rcases h with h | h
    · simp [runMigration, h]
    · by_cases ht : truthyStr env.config.directusToken = true
      · simp [runMigration, ht, h]
      · simp only [Bool.not_eq_true] at ht
        simp [runMigration, ht]
  · intro env w limit cats htok hfold hcat htmpl
    set dsc := (if limit = 0 then "Full WordPress to Directus migration"
      else "Test migration") with hdsc
    have hcats : ∀ (w2 : World) (b2 : Nat),
        migrateCategories env w2 b2 0 = Except.error templateErrorMsg := by
      intro w2 b2
      simp [migrateCategories, hcat, htmpl]
    have hrun : runMigration env w limit
        = (completeBatch
            (migrateTagTranslations env
              (migrateTags env (createBatch w "migration_run" dsc).1
                (createBatch w "migration_run" dsc).2 0)
              (createBatch w "migration_run" dsc).2 0)
            (createBatch w "migration_run" dsc).2
            "failed" (some templateErrorMsg), RunResult.error templateErrorMsg) := by
      simp only [runMigration, htok, hfold, Bool.not_true, hcats, ← hdsc]
      rfl
    have hframe := targetFrame_components
      ((migrateTagTranslations_targetFrame env
          (createBatch w "migration_run" dsc).2 0 _).trans
        (migrateTags_targetFrame env (createBatch w "migration_run" dsc).2 0
          (createBatch w "migration_run" dsc).1))
    rw [hrun]
    refine ⟨rfl, ?_, ?_, ?_, ?_, ?_⟩
    · exact hframe.1.trans rfl
    · exact hframe.2.2.1.trans rfl
    · exact hframe.2.2.2.1.trans rfl
    · exact hframe.2.2.2.2.1.trans rfl
    · simp only [completeBatch]
      rw [hframe.2.2.2.2.2]
      have hmem :
          ({ id := w.nextBatchId,
             batchName := "migration_run",
             description := dsc,
             status := "running",
             errorMessage := none,
             completedAt := none } : BatchRow)
            ∈ (createBatch w "migration_run" dsc).1.batches := by
        simp [createBatch]
      refine ⟨_, List.mem_map_of_mem _ hmem, ?_, ?_, ?_⟩ <;>
        simp [createBatch]

/-- Witness for the amended C5 theorem: instantiating the template-missing
branch at the concrete environment with an absent post-template id. -/
theorem c5_config_abort_amended_witness :
    (runMigration envMissingTemplate emptyWorld 0).2
        = RunResult.error templateErrorMsg ∧
    (runMigration envMissingTemplate emptyWorld 0).1.collections
        = emptyWorld.collections ∧
    ∃ b ∈ (runMigration envMissingTemplate emptyWorld 0).1.batches,
      b.id = emptyWorld.nextBatchId ∧ b.status = "failed" ∧
      b.errorMessage = some templateErrorMsg := by
  have h := c5_config_abort_amended.2.1 envMissingTemplate emptyWorld 0
    [("Cat", { id := 1, priority := 2 })] rfl rfl rfl rfl
  exact ⟨h.1, h.2.1, h.2.2.2.2.2⟩

/-- C2.  A post whose `('post', old_id)` pair already has a success record
in the tracking store is skipped: the migrator returns `skipped` and the
entire world — post rows, translation rows, import log, tracking — is
unchanged. -/
theorem c2_post_idempotent_skip (oracle : String → Except String String)
    (cfg : Config) (w : World) (b : Nat) (post : WpPost)
    (mapping : List (String × Int))
    (h : ∃ r ∈ w.tracking,
      r.tableName = "post" ∧ r.oldId = post.ID ∧ r.status = "success") :
    migrateSingleWpPost oracle cfg w b post mapping
        = (w, MigrateResult.skipped post.ID) ∧
    (migrateSingleWpPost oracle cfg w b post mapping).1.posts.length
        = w.posts.length ∧
    (migrateSingleWpPost oracle cfg w b post mapping).1.postTranslations.length
        = w.postTranslations.length ∧
    (migrateSingleWpPost oracle cfg w b post mapping).1.importLog
        = w.importLog := by
  have halready : isAlreadyMigrated w "post" post.ID = true := by
    obtain ⟨r, hr, h1, h2, h3⟩ := h
    exact List.any_eq_true.mpr ⟨r, hr, by simp [h1, h2, h3]⟩
  have heq : migrateSingleWpPost oracle cfg w b post mapping
      = (w, MigrateResult.skipped post.ID) := by
    simp [migrateSingleWpPost, halready]
  exact ⟨heq, by rw [heq], by rw [heq], by rw [heq]⟩

/-- C2 witness: the sample post with a prior success record is skipped and
the world returned unchanged. -/
theorem c2_post_idempotent_skip_witness :
    migrateSingleWpPost (fun _ => Except.ok "u") sampleConfig
        sampleTrackedWorld 1 samplePost []
      = (sampleTrackedWorld, MigrateResult.skipped "12") :=
  (c2_post_idempotent_skip (fun _ => Except.ok "u") sampleConfig
    sampleTrackedWorld 1 samplePost []
    ⟨sampleTrackRow, by simp [sampleTrackedWorld, emptyWorld],
      rfl, rfl, rfl⟩).1

/-- C3.  The importer checks the in-memory cache first (hit: world
untouched), then the tracking store (hit: only the cache is primed,
no import call), and only on a double miss performs exactly one call,
persisting the outcome — success id or failure — in the tracking store
before returning; consequently once a call has returned an asset id, any
later call for the same URL performs no import call at all. -/
theorem c3_import_order_dedup (oracle : String → Except String String)
    (w : World) (b : Nat) (url : String) :
    (∀ uuid, mapGet w.urlCache url = some uuid →
      importMediaUrl oracle w b url = (w, some uuid)) ∧
    (∀ id2, mapGet w.urlCache url = none →
      getMigratedId w "directus_files" url = some id2 →
      importMediaUrl oracle w b url
          = ({ w with urlCache := mapSet w.urlCache url id2 }, some id2) ∧
      (importMediaUrl oracle w b url).1.importLog = w.importLog) ∧
    (mapGet w.urlCache url = none →
      getMigratedId w "directus_files" url = none →
      (importMediaUrl oracle w b url).1.importLog = w.importLog ++ [url] ∧
      (∀ nid, oracle url = Except.ok nid →
        (importMediaUrl oracle w b url).2 = some nid ∧
        ∃ r ∈ (importMediaUrl oracle w b url).1.tracking,
          r.tableName = "directus_files" ∧ r.oldId = url ∧
          r.status = "success" ∧ r.newId = some nid) ∧
      (∀ e, oracle url = Except.error e →
        (importMediaUrl oracle w b url).2 = none ∧
        ∃ r ∈ (importMediaUrl oracle w b url).1.tracking,
          r.tableName = "directus_files" ∧ r.oldId = url ∧
          r.status = "failed")) ∧
    (∀ w1 res, importMediaUrl oracle w b url = (w1, res) →
      ∀ id1, res = some id1 →
      ∀ (oracle2 : String → Except String String) (b2 : Nat),
        importMediaUrl oracle2 w1 b2 url = (w1, some id1)) := by
  refine ⟨?_, ?_, ?_, ?_⟩
  · intro uuid hu
    simp [importMediaUrl, hu]
  · intro id2 h1 h2
    constructor
    · simp [importMediaUrl, h1, h2]
    · simp [importMediaUrl, h1, h2]
  · intro h1 h2
    refine ⟨?_, ?_, ?_⟩
    · cases horacle : oracle url with
      | ok nid => simp [importMediaUrl, h1, h2, horacle, trackMigration_importLog]
      | error e => simp [importMediaUrl, h1, h2, horacle, trackMigration_importLog]
    · intro nid horacle
      constructor
      · simp [importMediaUrl, h1, h2, horacle]
      · have hmem := trackMigration_mem
          { w with importLog := w.importLog ++ [url] } b "directus_files" url
          (some nid) "success" (some url) none
        obtain ⟨r, hr, hp⟩ := hmem
        refine ⟨r, ?_, hp.1, hp.2.1, hp.2.2.2.2.1, hp.2.2.2.1⟩
        simp [importMediaUrl, h1, h2, horacle]
        exact hr
    · intro e horacle
      constructor
      · simp [importMediaUrl, h1, h2, horacle]
      · have hmem := trackMigration_mem
          { w with importLog := w.importLog ++ [url] } b "directus_files" url
          none "failed" (some url) (some (importErrorMsg e url))
        obtain ⟨r, hr, hp⟩ := hmem
        refine ⟨r, ?_, hp.1, hp.2.1, hp.2.2.2.2.1⟩
        simp [importMediaUrl, h1, h2, horacle]
        exact hr
  · intro w1 res hcall id1 hres oracle2 b2
    subst hres
    have hcache : mapGet w1.urlCache url = some id1 := by
      cases hu : mapGet w.urlCache url with
      | some uuid =>
        have hstep : importMediaUrl oracle w b url = (w, some uuid) := by
          simp [importMediaUrl, hu]
        rw [hstep] at hcall
        injection hcall with hw hid
        rw [← hw, ← Option.some.inj hid]
        exact hu
      | none =>
        cases hst : getMigratedId w "directus_files" url with
        | some id2 =>
          have hstep : importMediaUrl oracle w b url
              = ({ w with urlCache := mapSet w.urlCache url id2 }, some id2) := by
            simp [importMediaUrl, hu, hst]
          rw [hstep] at hcall
          injection hcall with hw hid
          rw [← hw, ← Option.some.inj hid]
          exact mapGet_mapSet w.urlCache url id2
        | none =>
          cases horacle : oracle url with
          | ok nid =>
            have hstep : importMediaUrl oracle w b url
                = ({ (trackMigration
                      { w with importLog := w.importLog ++ [url] } b
                      "directus_files" url (some nid) "success" (some url)
                      none) with
                     urlCache := mapSet (trackMigration
                      { w with importLog := w.importLog ++ [url] } b
                      "directus_files" url (some nid) "success" (some url)
                      none).urlCache url nid }, some nid) := by
              simp [importMediaUrl, hu, hst, horacle]
            rw [hstep] at hcall
            injection hcall with hw hid
            rw [← hw, ← Option.some.inj hid]
            exact mapGet_mapSet _ url nid
          | error e =>
            have hstep : (importMediaUrl oracle w b url).2 = none := by
              simp [importMediaUrl, hu, hst, horacle]
            rw [hcall] at hstep
            simp at hstep
    simp [importMediaUrl, hcache]

/-- C3 witness: a double miss performs the import and a repeat call is
served from the cache without a second import call. -/
theorem c3_import_order_dedup_witness :
    ((importMediaUrl (fun _ => Except.ok "id9") emptyWorld 1 "https://u").1.importLog
      = [] ++ ["https://u"]) ∧
    importMediaUrl (fun _ => Except.error "e2")
        (importMediaUrl (fun _ => Except.ok "id9") emptyWorld 1 "https://u").1 2 "https://u"
      = ((importMediaUrl (fun _ => Except.ok "id9") emptyWorld 1 "https://u").1,
          some "id9") := by
  have h := c3_import_order_dedup (fun _ => Except.ok "id9") emptyWorld 1 "https://u"
  have hmiss := h.2.2.1 rfl rfl
  refine ⟨hmiss.1, ?_⟩
  exact h.2.2.2 (importMediaUrl (fun _ => Except.ok "id9") emptyWorld 1 "https://u").1
    (importMediaUrl (fun _ => Except.ok "id9") emptyWorld 1 "https://u").2 rfl
    "id9" (hmiss.2.1 "id9" rfl).1 (fun _ => Except.error "e2") 2

/-- C4.  When the remote import fails, the importer returns `none` rather
than raising, and the world it returns carries a `directus_files` tracking
record for the URL with status `failed` and the composed error message;
with an always-failing importer the sample post migration still succeeds,
producing the post row with a null thumbnail. -/
theorem c4_import_failure_recorded (oracle : String → Except String String)
    (w : World) (b : Nat) (url e : String)
    (h1 : mapGet w.urlCache url = none)
    (h2 : getMigratedId w "directus_files" url = none)
    (h3 : oracle url = Except.error e) :
    (importMediaUrl oracle w b url).2 = none ∧
    (∃ r ∈ (importMediaUrl oracle w b url).1.tracking,
      r.tableName = "directus_files" ∧ r.oldId = url ∧ r.status = "failed" ∧
      r.errorMessage = some (importErrorMsg e url)) ∧
    (migrateSingleWpPost (fun _ => Except.error "boom") sampleConfig
        emptyWorld 1 samplePost []).2 = MigrateResult.success "12" 1 ∧
    (migrateSingleWpPost (fun _ => Except.error "boom") sampleConfig
        emptyWorld 1 samplePost []).1.posts.map (fun p => (p.id, p.thumbnail))
      = [((12 : Int), (none : Option String))] := by
  refine ⟨?_, ?_, rfl, rfl⟩
  · simp [importMediaUrl, h1, h2, h3]
  · have hmem := trackMigration_mem
      { w with importLog := w.importLog ++ [url] } b "directus_files" url
      none "failed" (some url) (some (importErrorMsg e url))
    obtain ⟨r, hr, hp⟩ := hmem
    refine ⟨r, ?_, hp.1, hp.2.1, hp.2.2.2.2.1, hp.2.2.2.2.2⟩
    simp [importMediaUrl, h1, h2, h3]
    exact hr

/-- C4 witness: concrete failing import. -/
theorem c4_import_failure_recorded_witness :
    (importMediaUrl (fun _ => Except.error "x") emptyWorld 1 "https://u").2
        = none ∧
    ∃ r ∈ (importMediaUrl (fun _ => Except.error "x")
        emptyWorld 1 "https://u").1.tracking,
      r.tableName = "directus_files" ∧ r.oldId = "https://u" ∧
      r.status = "failed" ∧
      r.errorMessage = some (importErrorMsg "x" "https://u") := by
  have h := c4_import_failure_recorded (fun _ => Except.error "x")
    emptyWorld 1 "https://u" "x" rfl rfl rfl
  exact ⟨h.1, h.2.1⟩

/-- C10.  A tracking upsert hitting an existing `(table_name, old_id,
batch_id)` row changes only the new id, status, error message and
updated-at clock of the matching rows: row identities, source-data
snapshots and created-at stamps are all preserved, and no row is added or
removed. -/
theorem c10_upsert_conflict_frame (w : World) (b : Nat) (t o : String)
    (nid : Option String) (st : String) (sd em : Option String)
    (h : w.tracking.any (trackKeyIs t o b) = true) :
    ((trackMigration w b t o nid st sd em).tracking.map
        (fun r => (r.id, r.sourceData, r.createdAt)))
      = w.tracking.map (fun r => (r.id, r.sourceData, r.createdAt)) ∧
    ((trackMigration w b t o nid st sd em).tracking.map
        (fun r => (r.id, r.newId, r.status, r.errorMessage, r.updatedAt)))
      = w.tracking.map (fun r =>
          if trackKeyIs t o b r then (r.id, nid, st, em, w.time)
          else (r.id, r.newId, r.status, r.errorMessage, r.updatedAt)) ∧
    (trackMigration w b t o nid st sd em).tracking.length
      = w.tracking.length := by
  have hred : (trackMigration w b t o nid st sd em).tracking
      = w.tracking.map (fun r =>
          if trackKeyIs t o b r then
            { r with
              newId := nid, status := st, errorMessage := em,
              updatedAt := w.time }
          else r) := by
    simp [trackMigration, h]
  refine ⟨?_, ?_, ?_⟩
  · rw [hred, List.map_map]
    refine List.map_congr_left ?_
    intro r _
    by_cases hk : trackKeyIs t o b r <;> simp [hk]
  · rw [hred, List.map_map]
    refine List.map_congr_left ?_
    intro r _
    by_cases hk : trackKeyIs t o b r <;> simp [hk]
  · rw [hred]
    simp

/-- C10 witness: a concrete conflicting upsert keeps the stored snapshot
and created-at stamp. -/
theorem c10_upsert_conflict_frame_witness :
    ((trackMigration samplePendingWorld 2 "post" "9" (some "9") "success"
        (some "OTHER") none).tracking.map
        (fun r => (r.id, r.sourceData, r.createdAt)))
      = [((5 : Nat), some "SNAP", (3 : Nat))] := by
  have h := c10_upsert_conflict_frame samplePendingWorld 2 "post" "9"
    (some "9") "success" (some "OTHER") none (by decide)
  rw [h.1]
  rfl

/-- C1.  While a multi-line quoted field is being accumulated, the streaming
reader completes the record exactly when the accumulated continuation text
contains an even number of quote characters; the reassembled full line joins
the physical lines with a literal newline; when its parsed field count
matches the header width and the record passes the configured filter and
limit, the reader yields exactly the record mapping each header name to the
corresponding field value; and the line parser un-doubles doubled quotes
(concrete instance included). -/
theorem c1_csv_multiline_reassembly (opts : CSVOptions) (hdrs : List String)
    (f line : String) (cnt : Nat) :
    (¬ countQuotes (f ++ "\n" ++ line) % 2 = 0 →
      csvProcessLine opts ⟨some hdrs, some f, cnt, false⟩ line
        = (⟨some hdrs, some (f ++ "\n" ++ line), cnt, false⟩, [])) ∧
    (countQuotes (f ++ "\n" ++ line) % 2 = 0 →
      (csvProcessLine opts ⟨some hdrs, some f, cnt, false⟩ line).1.currentField = none ∧
      ((parseCSVLine (f ++ "\n" ++ line)).length = hdrs.length →
        csvFilterPass opts (mkRecord hdrs (parseCSVLine (f ++ "\n" ++ line))) = true →
        (opts.limit = 0 ∨ cnt + 1 ≤ opts.limit) →
        (csvProcessLine opts ⟨some hdrs, some f, cnt, false⟩ line).2
          = [mkRecord hdrs (parseCSVLine (f ++ "\n" ++ line))])) ∧
    (∀ (values : List String) (i : Nat) (h1 : i < hdrs.length)
        (h2 : i < values.length), hdrs.Nodup →
      getField (mkRecord hdrs values) hdrs[i] = some values[i]) ∧
    parseCSVLine "7,post,publish,\"line1\nli\"\"ne2\",exc"
      = ["7", "post", "publish", "line1\nli\"ne2", "exc"] := by
  refine ⟨?_, ?_, ?_, by decide⟩
  · intro hodd
    simp [csvProcessLine, hodd]
  · intro heven
    constructor
    · by_cases hlen : (parseCSVLine (f ++ "\n" ++ line)).length = hdrs.length
      · simp only [csvProcessLine, heven, hlen, csvTryYield, if_pos rfl]
        simp only [if_true]
        split
        · simp_all
        · split <;> simp
      · simp [csvProcessLine, heven, hlen]
    · intro hlen hfil hlim
      simp only [csvProcessLine, heven, hlen, csvTryYield, hfil]
      simp [hlim]
  · intro values i h1 h2 hnd
    rw [mkRecord_eq_zip hdrs values hnd]
    exact getField_zip hdrs values i h1 h2 hnd

/-- Membership is preserved by first-occurrence de-duplication. -/
theorem mem_firstDedup : ∀ (l : List String) (a : String),
    a ∈ firstDedup l ↔ a ∈ l := by
  intro l
  induction l using firstDedup.induct with
  | case1 => intro a; simp [firstDedup]
  | case2 x xs ih =>
    intro a
    rw [firstDedup]
    simp only [List.mem_cons]
    constructor
    · rintro (rfl | h)
      · exact Or.inl rfl
      · have := (ih a).mp h
        exact Or.inr (List.mem_of_mem_filter this)
    · rintro (rfl | h)
      · exact Or.inl rfl
      · by_cases hax : a = x
        · exact Or.inl hax
        · refine Or.inr ((ih a).mpr ?_)
          exact List.mem_filter.mpr ⟨h, by simp [hax]⟩

/-- First-occurrence de-duplication yields a list without duplicates. -/
theorem firstDedup_nodup : ∀ l : List String, (firstDedup l).Nodup := by
  intro l
  induction l using firstDedup.induct with
  | case1 => simp [firstDedup]
  | case2 x xs ih =>
    rw [firstDedup]
    refine List.nodup_cons.mpr ⟨?_, ih⟩
    intro hx
    have := (mem_firstDedup _ x).mp hx
    have := (List.mem_filter.mp this).2
    simp at this

/-- Folding the `Set`-insertion step equals appending the first-occurrence
de-duplication of the elements not already present. -/
theorem foldl_setAdd (l : List String) : ∀ acc : List String,
    l.foldl setAdd acc = acc ++ firstDedup (l.filter (fun u => !(acc.elem u))) := by
  induction l with
  | nil => intro acc; simp [firstDedup]
  | cons x xs ih =>
    intro acc
    by_cases hx : x ∈ acc
    · have hs : setAdd acc x = acc := by simp [setAdd, hx]
      rw [List.foldl_cons, hs, ih acc]
      have hf : List.filter (fun u => !(acc.elem u)) (x :: xs)
          = xs.filter (fun u => !(acc.elem u)) := by
        simp [List.filter_cons, hx]
      rw [hf]
    · have hs : setAdd acc x = acc ++ [x] := by simp [setAdd, hx]
      rw [List.foldl_cons, hs, ih (acc ++ [x])]
      have hfil : xs.filter (fun u => !((acc ++ [x]).elem u))
          = (xs.filter (fun u => !(acc.elem u))).filter (fun y => y != x) := by
        rw [List.filter_filter]
        refine List.filter_congr ?_
        intro u _
        by_cases h : u = x
        · simp [h]
        · simp [h]
      have hhead : List.filter (fun u => !(acc.elem u)) (x :: xs)
          = x :: xs.filter (fun u => !(acc.elem u)) := by
        simp [List.filter_cons, hx]
      rw [hfil, hhead, firstDedup]
      simp

/-- C7.  The extractor returns the first-occurrence de-duplication of the
URL stream emitted by its six patterns (fully qualified via the configured
base URL), hence a duplicate-free list in first-emission order; and on the
spec example `<img src="/wp-content/uploads/2020/x.png">` with base URL
`https://example.com` it returns exactly that single resolved URL. -/
theorem c7_extract_media_urls (baseUrl content : String) :
    (¬ content = "" →
      extractMediaUrls baseUrl content = firstDedup (rawMediaUrls baseUrl content)) ∧
    (extractMediaUrls baseUrl content).Nodup ∧
    extractMediaUrls "https://example.com" "<img src=\"/wp-content/uploads/2020/x.png\">"
      = ["https://example.com/wp-content/uploads/2020/x.png"] := by
  have hmain : ¬ content = "" →
      extractMediaUrls baseUrl content = firstDedup (rawMediaUrls baseUrl content) := by
    intro hne
    rw [extractMediaUrls, if_neg hne, foldl_setAdd]
    simp
  refine ⟨hmain, ?_, by decide⟩
  by_cases hne : content = ""
  · simp [extractMediaUrls, hne]
  · rw [hmain hne]
    exact firstDedup_nodup _

/-- C7 witness: concrete duplicate input, de-duplicated by the extractor in
first-occurrence order. -/
theorem c7_extract_media_urls_witness :
    extractMediaUrls "B"
        "<img src=\"/wp-content/uploads/a.png\"><img src=\"/wp-content/uploads/a.png\">"
      = firstDedup (rawMediaUrls "B"
        "<img src=\"/wp-content/uploads/a.png\"><img src=\"/wp-content/uploads/a.png\">") :=
  (c7_extract_media_urls "B"
    "<img src=\"/wp-content/uploads/a.png\"><img src=\"/wp-content/uploads/a.png\">").1
    (by decide)

/-- C1 witness: a concrete two-physical-line record (content field containing
an embedded newline and internal doubled quotes) is reassembled and yielded
by the reader. -/
theorem c1_csv_multiline_reassembly_witness :
    (csvProcessLine ⟨"post", some "publish", 0⟩
        ⟨some ["ID", "post_type", "post_status", "post_content", "post_excerpt"],
          some "7,post,publish,\"line1", 0, false⟩ "li\"\"ne2\",exc").2
      = [mkRecord ["ID", "post_type", "post_status", "post_content", "post_excerpt"]
          (parseCSVLine ("7,post,publish,\"line1" ++ "\n" ++ "li\"\"ne2\",exc"))] :=
  ((c1_csv_multiline_reassembly ⟨"post", some "publish", 0⟩
      ["ID", "post_type", "post_status", "post_content", "post_excerpt"]
      "7,post,publish,\"line1" "li\"\"ne2\",exc" 0).2.1 (by decide)).2
    (by decide) (by decide) (Or.inl rfl)

/-- C6 counterexample: rolling back the completed batch (3 post successes,
1 tag success) deletes the three post rows and marks the batch
`rolled_back` as claimed — but the tag row of the batch is deleted too
(tag 5 disappears from the tag store), contradicting the claim that the
tag row remains untouched. -/
theorem c6_rollback_counterexample :
    (rollbackBatch sampleRollbackWorld (some 1)).2 = RollbackOutcome.done ∧
    (rollbackBatch sampleRollbackWorld (some 1)).1.posts.map (fun p => p.id)
      = [99] ∧
    (rollbackBatch sampleRollbackWorld (some 1)).1.batches.map
        (fun b => b.status)
      = ["rolled_back"] ∧
    sampleRollbackWorld.tags = [5, 6] ∧
    (rollbackBatch sampleRollbackWorld (some 1)).1.tags = [6] := by
  refine ⟨rfl, rfl, rfl, rfl, rfl⟩

/-- C6 (amended).  Rolling back a completed batch whose success records are
three posts and one tag deletes the three post rows AND the tag row from
the target store — every entity type tracked in the batch is rolled back,
not only the requested one — and marks the batch `rolled_back`. -/
theorem c6_rollback_amended (w : World) (bid : Nat) (batch : BatchRow)
    (r1 r2 r3 r4 : TrackRow) (n1 n2 n3 nt : Int)
    (hfind : w.batches.find? (fun b => b.id == bid) = some batch)
    (hstatus : batch.status = "completed")
    (hrows : w.tracking.filter
        (fun r => r.batchId == bid && r.status == "success")
      = [r1, r2, r3, r4])
    (ht1 : r1.tableName = "post") (ht2 : r2.tableName = "post")
    (ht3 : r3.tableName = "post") (ht4 : r4.tableName = "tag")
    (hn1 : r1.newId.bind strToIntM = some n1)
    (hn2 : r2.newId.bind strToIntM = some n2)
    (hn3 : r3.newId.bind strToIntM = some n3)
    (hnt : r4.newId.bind strToIntM = some nt) :
    (rollbackBatch w (some bid)).2 = RollbackOutcome.done ∧
    (rollbackBatch w (some bid)).1.posts
      = w.posts.filter (fun p => !([n1, n2, n3].contains p.id)) ∧
    (rollbackBatch w (some bid)).1.tags
      = w.tags.filter (fun t => !([nt].contains t)) ∧
    (rollbackBatch w (some bid)).1.batches.map (fun b => b.status)
      = w.batches.map
          (fun b => if b.id == bid then "rolled_back" else b.status) := by
  have hpost : rollbackIdsFor [r1, r2, r3, r4] "post" = [n1, n2, n3] := by
    simp +decide [rollbackIdsFor, List.filterMap_filterMap,
      ht1, ht2, ht3, ht4, hn1, hn2, hn3]
  have htag : rollbackIdsFor [r1, r2, r3, r4] "tag" = [nt] := by
    simp +decide [rollbackIdsFor, List.filterMap_filterMap,
      ht1, ht2, ht3, ht4, hnt]
  simp only [rollbackBatch, hfind, hrows, hstatus, hpost, htag,
    beq_self_eq_true, Bool.not_true, Bool.false_eq_true, if_false]
  refine ⟨trivial, trivial, trivial, ?_⟩
  rw [List.map_map]
  refine List.map_congr_left ?_
  intro b hb
  by_cases h : (b.id == bid) = true <;> simp [h, Function.comp]

/-- C6 witness: the amended theorem instantiated at the sample rollback
world — the three post rows vanish, tag 5 vanishes, the batch is marked
`rolled_back`. -/
theorem c6_rollback_amended_witness :
    (rollbackBatch sampleRollbackWorld (some 1)).2 = RollbackOutcome.done ∧
    (rollbackBatch sampleRollbackWorld (some 1)).1.posts
      = sampleRollbackWorld.posts.filter
          (fun p => !(([11, 12, 13] : List Int).contains p.id)) ∧
    (rollbackBatch sampleRollbackWorld (some 1)).1.tags
      = sampleRollbackWorld.tags.filter
          (fun t => !(([5] : List Int).contains t)) ∧
    (rollbackBatch sampleRollbackWorld (some 1)).1.batches.map
        (fun b => b.status)
      = sampleRollbackWorld.batches.map
          (fun b => if b.id == 1 then "rolled_back" else b.status) :=
  c6_rollback_amended sampleRollbackWorld 1 rbBatch rbTrack1 rbTrack2 rbTrack3
    rbTrack4 11 12 13 5 rfl rfl rfl rfl rfl rfl rfl rfl rfl rfl rfl

end Migration
